import Mathlib

/-!
Verification of the network-attachment reconciliation and switch-port
provisioning subsystem of the baremetal-operator repository.

The Go sources are shallowly embedded: Go slices become `List`, Go maps become
association lists (`List (String × β)`) with map-assignment modelled by
`mapInsert`, Go `nil` vs empty slices become `Option (List _)`, Go `error`
returns become `Option String`/`Except String _`, and Kubernetes client calls
become explicit parameters describing the outcome of the call.  Byte strings
(`[]byte`) are modelled as `String`.
-/

namespace Metal3

/-! ## String utilities (models of Go `strings` operations) -/

/-- Whether the first character list is a leading segment of the second. -/
def strStartsWith : List Char → List Char → Bool
  | [], _ => true
  | _ :: _, [] => false
  | a :: as, b :: bs => a == b && strStartsWith as bs

/-- Whether `needle` occurs contiguously inside the character list. -/
def strHasSub (needle : List Char) : List Char → Bool
  | [] => strStartsWith needle []
  | c :: rest => strStartsWith needle (c :: rest) || strHasSub needle rest

/-- Model of Go `strings.Contains hay needle`. -/
def strContains (hay needle : String) : Bool :=
  strHasSub needle.data hay.data

/-- Model of Go `strings.Join(elems, sep)`. -/
def stringsJoin : List String → String → String
  | [], _ => ""
  | [s], _ => s
  | s :: rest, sep => s ++ sep ++ stringsJoin rest sep

/-- Concatenation of a list of byte strings, in order (sequential buffer writes). -/
def concatAll : List String → String
  | [] => ""
  | s :: rest => s ++ concatAll rest

/-- ASCII lower-casing of one character (sufficient for MAC addresses and
interface names handled by the Go code). -/
def charToLower (c : Char) : Char :=
  if 65 ≤ c.toNat ∧ c.toNat ≤ 90 then Char.ofNat (c.toNat + 32) else c

/-- Model of Go `strings.ToLower`. -/
def strToLower (s : String) : String :=
  String.mk (s.data.map charToLower)

/-- Model of Go `strings.ReplaceAll(s, ":", "-")` (single-character pattern). -/
def replaceColonDash (s : String) : String :=
  String.mk (s.data.map (fun c => if c == ':' then '-' else c))

/-- Lexicographic comparison of character lists by code point, non-strict. -/
def strLeChars : List Char → List Char → Bool
  | [], _ => true
  | _ :: _, [] => false
  | a :: as, b :: bs =>
    if a.toNat < b.toNat then true
    else if b.toNat < a.toNat then false
    else strLeChars as bs

/-- Model of the string order used by Go `sort.Strings`. -/
def strLeB (a b : String) : Bool :=
  strLeChars a.data b.data

/-! ## Association-list maps (models of Go maps) -/

/-- Lookup in an association list (model of Go map indexing). -/
def assocLookup {β : Type} (m : List (String × β)) (k : String) : Option β :=
  (m.find? (fun p => p.1 == k)).map Prod.snd

/-- Map assignment `m[k] = v`: replaces the binding when the key is present,
otherwise appends it. -/
def mapInsert {β : Type} (m : List (String × β)) (k : String) (v : β) :
    List (String × β) :=
  match m with
  | [] => [(k, v)]
  | p :: rest => if p.1 == k then (k, v) :: rest else p :: mapInsert rest k v

/-! ## HostNetworkAttachment data model
(src/apis/metal3.io/v1alpha1/hostnetworkattachment_types.go) -/

/-- `HostNetworkAttachmentSpec`: mode, native VLAN, allowed VLANs, MTU.
The mode is a string with valid values access / trunk / hybrid. -/
structure HostNetworkAttachmentSpec where
  Mode : String
  NativeVLAN : Int
  AllowedVLANs : List Int
  MTU : Option Int
deriving DecidableEq, Repr

/-- `HostNetworkAttachment` with the metadata fields the webhook uses. -/
structure HostNetworkAttachment where
  Name : String
  Namespace : String
  Spec : HostNetworkAttachmentSpec
deriving DecidableEq, Repr

/-- `HostNetworkAttachmentRef`: name plus optional namespace (empty string
models the unset namespace, defaulting to the host's namespace). -/
structure HostNetworkAttachmentRef where
  Name : String
  Namespace : String
deriving DecidableEq, Repr

/-- One entry of a host's `spec.networkInterfaces`. -/
structure NetworkInterface where
  Name : String
  MACAddress : String
  HostNetworkAttachment : HostNetworkAttachmentRef
deriving DecidableEq, Repr

/-- Modelled from the spec: `NetworkInterface.GetKey` is declared outside the
provided sources (only callers appear in src/); §4.3 of the spec keys an
interface by "name if set, else MAC". -/
def NetworkInterface.GetKey (i : NetworkInterface) : String :=
  if i.Name ≠ "" then i.Name else i.MACAddress

/-! ## Attachment field validation
(webhook file, validateSwitchportConfiguration / validateVLANList /
validateVLANID / validateMTU / validateAttachment) -/

/-- `validateVLANID`: a VLAN ID must lie in [1,4094]. -/
def validateVLANID (vlan : Int) : Option String :=
  if vlan < 1 ∨ vlan > 4094 then
    some ("VLAN ID " ++ toString vlan ++ " is out of range (1-4094)")
  else none

/-- `validateVLANList`: first out-of-range entry is reported. -/
def validateVLANList : List Int → Option String
  | [] => none
  | vlan :: rest =>
    match validateVLANID vlan with
    | some e => some e
    | none => validateVLANList rest

/-- `validateSwitchportConfiguration`: mode-specific VLAN rules, then the
native VLAN range (the native VLAN is only reached when the mode check
produced no error). -/
def validateSwitchportConfiguration (attachment : HostNetworkAttachment) :
    Option String :=
  let mode := attachment.Spec.Mode
  let allowedVLANs := attachment.Spec.AllowedVLANs
  let modeErr : Option String :=
    if mode = "access" then
      if allowedVLANs.length > 0 then
        some "allowedVlans cannot be specified for access mode"
      else none
    else if mode = "trunk" ∨ mode = "hybrid" then
      match validateVLANList allowedVLANs with
      | some e => some ("invalid allowedVlans: " ++ e)
      | none => none
    else
      some ("invalid switchport mode: " ++ mode)
  match modeErr with
  | some e => some e
  | none =>
    match validateVLANID attachment.Spec.NativeVLAN with
    | some e => some ("invalid nativeVlan: " ++ e)
    | none => none

/-- `validateMTU`: an MTU, when present, must lie in [68,9000]. -/
def validateMTU (attachment : HostNetworkAttachment) : Option String :=
  match attachment.Spec.MTU with
  | some mtu =>
    if mtu < 68 ∨ mtu > 9000 then
      some ("MTU " ++ toString mtu ++ " is out of range (68-9000)")
    else none
  | none => none

/-- `validateAttachment`: collects the switchport error and the MTU error. -/
def validateAttachment (attachment : HostNetworkAttachment) : List String :=
  (validateSwitchportConfiguration attachment).toList ++
    (validateMTU attachment).toList

/-- Whether some error message in the list contains "out of range". -/
def hasOutOfRange (errs : List String) : Bool :=
  errs.any (fun e => strContains e "out of range")

/-! ## BareMetalHost data model (the fields this subsystem reads/writes) -/

/-- One `metav1.Condition` (fields relevant to this subsystem; `CondType`
models the Go field `Type`). -/
structure Condition where
  CondType : String
  Status : String
  Reason : String
  Message : String
deriving DecidableEq, Repr

/-- One discovered NIC from `status.hardwareDetails.nic`. -/
structure NIC where
  Name : String
  MAC : String
  PXE : Bool
deriving DecidableEq, Repr

/-- `status.hardwareDetails` (the NIC list is all this subsystem reads). -/
structure HardwareDetails where
  NIC : List NIC
deriving DecidableEq, Repr

/-- `BareMetalHostSpec` restricted to the network-interface list. -/
structure BareMetalHostSpec where
  NetworkInterfaces : List NetworkInterface
deriving DecidableEq, Repr

/-- `BareMetalHostStatus` restricted to the fields this subsystem uses.
`AppliedNetworkInterfaces = none` models the Go nil slice, distinct from
`some []`, the empty-but-set list. -/
structure BareMetalHostStatus where
  HardwareDetails : Option HardwareDetails
  Conditions : List Condition
  AppliedNetworkInterfaces : Option (List NetworkInterface)
deriving DecidableEq, Repr

/-- `BareMetalHost` with its metadata, spec and status. -/
structure BareMetalHost where
  Name : String
  Namespace : String
  Spec : BareMetalHostSpec
  Status : BareMetalHostStatus
deriving DecidableEq, Repr

/-! ## Reference guard (webhook file, findBMHReferences / validateUpdate /
validateDelete) -/

/-- The effective attachment namespace of an interface reference: the
reference's namespace, defaulting to the host's namespace when empty. -/
def effectiveRefNamespace (netIf : NetworkInterface) (bmh : BareMetalHost) :
    String :=
  if netIf.HostNetworkAttachment.Namespace = "" then bmh.Namespace
  else netIf.HostNetworkAttachment.Namespace

/-- The field-index keys contributed by one host: one
`"namespace/name"` entry per interface with a named attachment reference
(the indexer registered in SetupWebhookWithManager). -/
def bmhIndexKeys (bmh : BareMetalHost) : List String :=
  bmh.Spec.NetworkInterfaces.filterMap (fun netIf =>
    if netIf.HostNetworkAttachment.Name ≠ "" then
      some (effectiveRefNamespace netIf bmh ++ "/" ++
        netIf.HostNetworkAttachment.Name)
    else none)

/-- The index key queried for an attachment: `"namespace/name"`. -/
def attachmentIndexKey (attachment : HostNetworkAttachment) : String :=
  attachment.Namespace ++ "/" ++ attachment.Name

/-- The hosts returned by the `List` call in `findBMHReferences`: the field
selector matches hosts whose index keys contain the attachment's key, and the
list options additionally restrict to the attachment's namespace
("Limit to same namespace for safety"). -/
def clientListBMHs (store : List BareMetalHost)
    (attachment : HostNetworkAttachment) : List BareMetalHost :=
  store.filter (fun bmh =>
    decide (bmh.Namespace = attachment.Namespace ∧
      attachmentIndexKey attachment ∈ bmhIndexKeys bmh))

/-- `findBMHReferences` on a successful list call: collects
`"hostNamespace/hostName[interfaceName]"` for every interface of a listed host
that references the attachment. -/
def findBMHReferences (store : List BareMetalHost)
    (attachment : HostNetworkAttachment) : List String :=
  (clientListBMHs store attachment).flatMap (fun bmh =>
    bmh.Spec.NetworkInterfaces.filterMap (fun netIf =>
      if netIf.HostNetworkAttachment.Name = attachment.Name ∧
         effectiveRefNamespace netIf bmh = attachment.Namespace then
        some (bmh.Namespace ++ "/" ++ bmh.Name ++ "[" ++ netIf.Name ++ "]")
      else none))

/-- Outcome of the webhook client's `List` call: either the stored hosts are
visible, or the call fails. -/
inductive BMHListResult where
  | ok (store : List BareMetalHost)
  | failure (msg : String)

/-- `findBMHReferences` including the failing-list case. -/
def findBMHReferencesE (client : BMHListResult)
    (attachment : HostNetworkAttachment) : Except String (List String) :=
  match client with
  | .failure msg => .error ("failed to list BMHs using index: " ++ msg)
  | .ok store => .ok (findBMHReferences store attachment)

/-- `validateUpdate`: field validation of the new attachment, unconditional
allow when the spec is unchanged, fail-closed on a reference-lookup failure,
immutability error while referenced.  The admission warnings are not modelled;
the error value is the list of errors aggregated by `kerrors.NewAggregate`. -/
def validateUpdate (client : BMHListResult)
    (oldAttachment newAttachment : HostNetworkAttachment) :
    Except (List String) Unit :=
  let errs0 := validateAttachment newAttachment
  if oldAttachment.Spec = newAttachment.Spec then .ok ()
  else
    match findBMHReferencesE client oldAttachment with
    | .error e =>
      .error ["failed to check BMH references, cannot safely allow update: " ++ e]
    | .ok references =>
      let errs :=
        if references.length > 0 then
          errs0 ++
            ["HostNetworkAttachment spec is immutable while referenced by BMH interfaces: " ++
              stringsJoin references ", "]
        else errs0
      if errs.length > 0 then .error errs else .ok ()

/-- `validateDelete`: a lookup failure surfaces as an error, a referenced
attachment is forbidden to delete. -/
def validateDelete (client : BMHListResult)
    (attachment : HostNetworkAttachment) : Except String Unit :=
  match findBMHReferencesE client attachment with
  | .error e => .error ("failed to check BMH references: " ++ e)
  | .ok references =>
    if references.length > 0 then
      .error ("cannot delete attachment while referenced by BMH interfaces: " ++
        stringsJoin references ", ")
    else .ok ()

/-- The pair string naming one referencing host/interface. -/
def refPairString (bmh : BareMetalHost) (netIf : NetworkInterface) : String :=
  bmh.Namespace ++ "/" ++ bmh.Name ++ "[" ++ netIf.Name ++ "]"

/-! ## Host network controller
(baremetalhost_network.go: condition handling, interface validation, drift
detection, attachment resolution) -/

/-- The `NetworkInterfacesValid` condition type. -/
def ConditionNetworkInterfacesValid : String := "NetworkInterfacesValid"

/-- Model of `meta.FindStatusCondition`: the first condition of the type. -/
def findStatusCondition (conditions : List Condition) (condType : String) :
    Option Condition :=
  conditions.find? (fun c => c.CondType == condType)

/-- Model of `meta.SetStatusCondition` on the condition list: update the
fields of the existing condition of that type in place, else append. -/
def setStatusConditionList (conditions : List Condition) (newCond : Condition) :
    List Condition :=
  match conditions with
  | [] => [newCond]
  | c :: rest =>
    if c.CondType == newCond.CondType then
      { c with Status := newCond.Status, Reason := newCond.Reason,
               Message := newCond.Message } :: rest
    else c :: setStatusConditionList rest newCond

/-- Model of `meta.RemoveStatusCondition` on the condition list. -/
def removeStatusConditionList (conditions : List Condition)
    (condType : String) : List Condition :=
  conditions.filter (fun c => !(c.CondType == condType))

/-- `setNetworkInterfaceValidation`: no-op (not dirty) when the existing
condition already has the same status and reason, otherwise set and dirty. -/
def setNetworkInterfaceValidation (host : BareMetalHost)
    (status reason message : String) : Bool × BareMetalHost :=
  let existing :=
    findStatusCondition host.Status.Conditions ConditionNetworkInterfacesValid
  let updated : BareMetalHost :=
    { host with Status :=
      { host.Status with Conditions :=
        (setStatusConditionList host.Status.Conditions
          ⟨ConditionNetworkInterfacesValid, status, reason, message⟩) } }
  match existing with
  | some c =>
    if c.Status == status && c.Reason == reason then (false, host)
    else (true, updated)
  | none => (true, updated)

/-- `clearNetworkInterfaceValidation`: remove the condition when present. -/
def clearNetworkInterfaceValidation (host : BareMetalHost) :
    Bool × BareMetalHost :=
  if (findStatusCondition host.Status.Conditions
      ConditionNetworkInterfacesValid).isSome then
    (true,
      { host with Status :=
        { host.Status with Conditions :=
          (removeStatusConditionList host.Status.Conditions
            ConditionNetworkInterfacesValid) } })
  else (false, host)

/-- `getAvailableNICNames`: the sorted non-empty NIC names. -/
def getAvailableNICNames (nics : List NIC) : List String :=
  (nics.filterMap (fun nic => if nic.Name ≠ "" then some nic.Name else none)).mergeSort
    strLeB

/-- The `availableNICs` membership map built by
`performNetworkInterfaceValidation`: every discovered NIC contributes its
non-empty name and its non-empty MAC as valid keys. -/
def availableNICs (hardwareDetails : HardwareDetails) (key : String) : Bool :=
  hardwareDetails.NIC.any (fun nic =>
    (decide (nic.Name ≠ "") && (nic.Name == key)) ||
      (decide (nic.MAC ≠ "") && (nic.MAC == key)))

/-- The invalid declared interface keys of a host spec against the discovered
hardware. -/
def invalidInterfaceKeys (spec : BareMetalHostSpec)
    (hardwareDetails : HardwareDetails) : List String :=
  (spec.NetworkInterfaces.map (fun netIf => netIf.GetKey)).filter
    (fun key => !(availableNICs hardwareDetails key))

/-- The condition message for invalid interfaces. -/
def invalidInterfacesMessage (invalidInterfaces : List String)
    (hardwareDetails : HardwareDetails) : String :=
  let availableNames := getAvailableNICNames hardwareDetails.NIC
  if availableNames.length = 0 then
    "Invalid interface names: " ++ stringsJoin invalidInterfaces ", " ++
      ". No network interfaces discovered on this host."
  else
    "Invalid interface names: " ++ stringsJoin invalidInterfaces ", " ++
      ". Available interfaces: " ++ stringsJoin availableNames ", "

/-- `performNetworkInterfaceValidation`: validate every declared interface key
against the discovered NIC names and MACs, then set the condition. -/
def performNetworkInterfaceValidation (host : BareMetalHost)
    (hardwareDetails : HardwareDetails) : Bool × BareMetalHost :=
  let invalidInterfaces := invalidInterfaceKeys host.Spec hardwareDetails
  if invalidInterfaces.length > 0 then
    setNetworkInterfaceValidation host "False" "InvalidInterfaceNames"
      (invalidInterfacesMessage invalidInterfaces hardwareDetails)
  else
    setNetworkInterfaceValidation host "True" "AllInterfacesValid"
      "All network interfaces are valid"

/-- `validateNetworkInterfaces`: clear the condition when there are no
declared interfaces or hardware discovery is incomplete
(`isHardwareDiscoveryComplete` is `HardwareDetails != nil`), else validate.
The Go error result is always nil on these paths; the returned pair is
(dirty, updated host). -/
def validateNetworkInterfaces (host : BareMetalHost) : Bool × BareMetalHost :=
  if host.Spec.NetworkInterfaces.length = 0 then
    clearNetworkInterfaceValidation host
  else
    match host.Status.HardwareDetails with
    | none => clearNetworkInterfaceValidation host
    | some hardwareDetails => performNetworkInterfaceValidation host hardwareDetails

/-- `networkInterfaceValidationPassed`: the condition exists with status True. -/
def networkInterfaceValidationPassed (host : BareMetalHost) : Bool :=
  match findStatusCondition host.Status.Conditions
      ConditionNetworkInterfacesValid with
  | some cond => cond.Status == "True"
  | none => false

/-- `switchPortConfigurationNeedsUpdate`: drift detection between
`spec.networkInterfaces` and `status.appliedNetworkInterfaces`. -/
def switchPortConfigurationNeedsUpdate (host : BareMetalHost) : Bool × String :=
  if host.Spec.NetworkInterfaces.length = 0 then
    if (host.Status.AppliedNetworkInterfaces.getD []).length > 0 then
      (true, "NetworkInterfacesRemoved")
    else (false, "")
  else if !(networkInterfaceValidationPassed host) then (false, "")
  else
    match host.Status.AppliedNetworkInterfaces with
    | none => (true, "InitialConfiguration")
    | some applied =>
      if host.Spec.NetworkInterfaces ≠ applied then
        (true, "NetworkInterfaceSpecChanged")
      else (false, "")

/-! ## Attachment resolution (resolveSwitchPortConfigs) -/

/-- Outcome of fetching one attachment from the API server. -/
inductive AttachmentGetResult where
  | found (spec : HostNetworkAttachmentSpec)
  | notFound
  | failed (msg : String)

/-- Whether the fetch failed for a reason other than not-found. -/
def AttachmentGetResult.isFailed : AttachmentGetResult → Bool
  | .failed _ => true
  | _ => false

/-- Whether the fetch reported not-found. -/
def AttachmentGetResult.isNotFound : AttachmentGetResult → Bool
  | .notFound => true
  | _ => false

/-- `provisioner.SwitchPortConfig`. -/
structure SwitchPortConfig where
  Mode : String
  NativeVLAN : Int
  AllowedVLANs : List Int
  MTU : Option Int
deriving DecidableEq, Repr

/-- The attachment fetch performed for one interface: the reference's
namespace (defaulting to the host's namespace) and name. -/
def interfaceAttachmentGet (client : String → String → AttachmentGetResult)
    (hostNamespace : String) (netIf : NetworkInterface) : AttachmentGetResult :=
  client
    (if netIf.HostNetworkAttachment.Namespace = "" then hostNamespace
     else netIf.HostNetworkAttachment.Namespace)
    netIf.HostNetworkAttachment.Name

/-- The loop of `resolveSwitchPortConfigs` over the declared interfaces,
carrying the configs map built so far (the loop body reads the host only
through its namespace). -/
def resolveLoop (client : String → String → AttachmentGetResult)
    (hostNamespace : String) :
    List NetworkInterface → List (String × SwitchPortConfig) →
      Except String (List (String × SwitchPortConfig))
  | [], configs => .ok configs
  | netIf :: rest, configs =>
    let attachmentNS :=
      if netIf.HostNetworkAttachment.Namespace = "" then hostNamespace
      else netIf.HostNetworkAttachment.Namespace
    match client attachmentNS netIf.HostNetworkAttachment.Name with
    | .notFound => resolveLoop client hostNamespace rest configs
    | .failed msg =>
      .error ("failed to get network attachment " ++ attachmentNS ++ "/" ++
        netIf.HostNetworkAttachment.Name ++ ": " ++ msg)
    | .found spec =>
      resolveLoop client hostNamespace rest
        (mapInsert configs netIf.GetKey
          ⟨spec.Mode, spec.NativeVLAN, spec.AllowedVLANs, spec.MTU⟩)

/-- `resolveSwitchPortConfigs`: resolve every declared interface's attachment
into a switch-port configuration keyed by the interface key. -/
def resolveSwitchPortConfigs (client : String → String → AttachmentGetResult)
    (host : BareMetalHost) :
    Except String (List (String × SwitchPortConfig)) :=
  resolveLoop client host.Namespace host.Spec.NetworkInterfaces []

/-! ## Port reconciliation (ironic networking.go: ensurePorts) -/

/-- One Ironic port record; only the MAC address field is read by
`ensurePorts` itself (the rest is consumed by the per-NIC ensure operation,
which is abstracted below). -/
structure Port where
  Address : String
deriving DecidableEq, Repr

/-- The loop of NIC deduplication, carrying the lower-cased MACs seen. -/
def dedupLoop : List String → List NIC → List NIC
  | _, [] => []
  | seen, nic :: rest =>
    if nic.MAC = "" then dedupLoop seen rest
    else if seen.contains (strToLower nic.MAC) then dedupLoop seen rest
    else nic :: dedupLoop (strToLower nic.MAC :: seen) rest

/-- Modelled from the spec: `deduplicateNICsByMAC` is declared outside the
provided sources (only its callers and tests are in src/); §4.2 of the spec:
case-insensitive MAC comparison, entries with an empty MAC are dropped, the
first occurrence per MAC is kept, kept entries follow first-seen order. -/
def deduplicateNICsByMAC (nics : List NIC) : List NIC :=
  dedupLoop [] nics

/-- The environment of one `ensurePorts` call.  The per-NIC ensure operation
`ensurePort` and the pre-inspection `ensurePxePort` path are declared outside
the provided sources and are abstracted as parameters returning an optional
error message; the remote list call is a parameter describing its outcome. -/
structure EnsurePortsEnv where
  bootMACAddress : String
  switchPortConfigs : List (String × SwitchPortConfig)
  storedHardwareDetails : Option HardwareDetails
  listNodePorts : Except String (List Port)
  ensurePort : NIC → Bool → Option SwitchPortConfig → Option Port → Option String
  ensurePxePort : Option String

/-- The body of the per-NIC loop of `ensurePorts`: the failure label
`"name(mac): cause"` when the ensure operation fails, `none` on success or
when the NIC has no MAC. -/
def ensureOneNIC (env : EnsurePortsEnv)
    (portsByMAC : List (String × Port)) (nic : NIC) : Option String :=
  if nic.MAC = "" then none
  else
    let isPXEPort :=
      nic.PXE || (strToLower nic.MAC == strToLower env.bootMACAddress)
    let byName : Option SwitchPortConfig :=
      if nic.Name ≠ "" then
        assocLookup env.switchPortConfigs (strToLower nic.Name)
      else none
    let switchConfig : Option SwitchPortConfig :=
      match byName with
      | some c => some c
      | none =>
        if nic.MAC ≠ "" then
          assocLookup env.switchPortConfigs (strToLower nic.MAC)
        else none
    let existingPort := assocLookup portsByMAC (strToLower nic.MAC)
    match env.ensurePort nic isPXEPort switchConfig existingPort with
    | some e => some (nic.Name ++ "(" ++ nic.MAC ++ "): " ++ e)
    | none => none

/-- `ensurePorts`: boot-MAC-only fallback before inspection, otherwise
deduplicate the stored NICs, list existing ports once, ensure each unique NIC
collecting failures, and aggregate failures (at most the first three named)
into a single error. -/
def ensurePorts (env : EnsurePortsEnv) : Option String :=
  match env.storedHardwareDetails with
  | none =>
    if env.bootMACAddress ≠ "" then env.ensurePxePort else none
  | some hardwareDetails =>
    let uniqueNICs := deduplicateNICsByMAC hardwareDetails.NIC
    match env.listNodePorts with
    | .error e => some ("failed to list existing ports: " ++ e)
    | .ok existingPorts =>
      let portsByMAC := existingPorts.foldl
        (fun m port => mapInsert m (strToLower port.Address) port) []
      let failures := uniqueNICs.foldl
        (fun acc nic =>
          match ensureOneNIC env portsByMAC nic with
          | some failure => acc ++ [failure]
          | none => acc) []
      if failures.length > 0 then
        let reported := if failures.length > 3 then failures.take 3 else failures
        some ("failed to ensure " ++ toString failures.length ++ "/" ++
          toString uniqueNICs.length ++ " ports: " ++ stringsJoin reported "; ")
      else none

/-- The aggregate error message built by `ensurePorts` from a failure list. -/
def ensurePortsAggregate (failures : List String) (total : Nat) : String :=
  "failed to ensure " ++ toString failures.length ++ "/" ++ toString total ++
    " ports: " ++
    stringsJoin (if failures.length > 3 then failures.take 3 else failures) "; "

/-! ## Switch configuration generation
(baremetalswitch controller: writeSwitchEntry / generateSwitchConfig /
updateSwitchConfigSecret / updateSecretData / secretDataEqual) -/

/-- `SwitchCredentials`: credential scheme tag and secret name (`CredType`
models the Go field `Type`). -/
structure SwitchCredentials where
  CredType : String
  SecretName : String
deriving DecidableEq, Repr

/-- `BareMetalSwitchSpec`. -/
structure BareMetalSwitchSpec where
  Address : String
  MACAddress : String
  Driver : String
  DeviceType : String
  Credentials : SwitchCredentials
  Port : Option Int
  DisableCertificateVerification : Option Bool
deriving DecidableEq, Repr

/-- `BareMetalSwitch` with its metadata. -/
structure BareMetalSwitch where
  Name : String
  Namespace : String
  Spec : BareMetalSwitchSpec
deriving DecidableEq, Repr

/-- Model of Go `strconv.FormatBool`. -/
def formatBool (b : Bool) : String :=
  if b then "true" else "false"

/-- Model of Go `filepath.Join` for the two-component case used here. -/
def filepathJoin (dir file : String) : String :=
  if dir = "" then file else dir ++ "/" ++ file

/-- `writeSwitchEntry`: renders one switch's INI section and, for
publickey-authenticated switches, the `"mac-with-dashes.key"` key-file
addition.  The secret fetch is a parameter from (namespace, name) to the
secret's data. -/
def writeSwitchEntry
    (getSecret : String → String → Except String (List (String × String)))
    (sw : BareMetalSwitch) (credentialsPath : String) :
    Except String (String × List (String × String)) :=
  let headerPart := "[switch:" ++ sw.Name ++ "]\n"
  let addressPart := "address=" ++ sw.Spec.Address ++ "\n"
  let macPart := "mac_address=" ++ sw.Spec.MACAddress ++ "\n"
  let portPart :=
    match sw.Spec.Port with
    | some p => "port=" ++ toString p ++ "\n"
    | none => ""
  let driverType := if sw.Spec.Driver = "" then "generic-switch" else sw.Spec.Driver
  let driverPart := "driver_type=" ++ driverType ++ "\n"
  let devicePart := "device_type=" ++ sw.Spec.DeviceType ++ "\n"
  let insecurePart :=
    match sw.Spec.DisableCertificateVerification with
    | some b => "insecure=" ++ formatBool b ++ "\n"
    | none => ""
  match getSecret sw.Namespace sw.Spec.Credentials.SecretName with
  | .error e =>
    .error ("failed to get credentials secret " ++ sw.Namespace ++ "/" ++
      sw.Spec.Credentials.SecretName ++ ": " ++ e)
  | .ok data =>
    match assocLookup data "username" with
    | none =>
      .error ("credentials secret " ++ sw.Spec.Credentials.SecretName ++
        " missing 'username' key")
    | some username =>
      let userPart := "username=" ++ username ++ "\n"
      if sw.Spec.Credentials.CredType = "publickey" then
        match assocLookup data "ssh-privatekey" with
        | none =>
          .error ("credentials secret " ++ sw.Spec.Credentials.SecretName ++
            " missing 'ssh-privatekey' key for publickey auth")
        | some privateKey =>
          let keyFileName := replaceColonDash sw.Spec.MACAddress ++ ".key"
          let keyPart :=
            "key_file=" ++ filepathJoin credentialsPath keyFileName ++ "\n"
          .ok (headerPart ++ addressPart ++ macPart ++ portPart ++ driverPart ++
            devicePart ++ insecurePart ++ userPart ++ keyPart ++ "\n",
            [(keyFileName, privateKey)])
      else
        match assocLookup data "password" with
        | none =>
          .error ("credentials secret " ++ sw.Spec.Credentials.SecretName ++
            " missing 'password' key")
        | some password =>
          let passwordPart := "password=" ++ password ++ "\n"
          .ok (headerPart ++ addressPart ++ macPart ++ portPart ++ driverPart ++
            devicePart ++ insecurePart ++ userPart ++ passwordPart ++ "\n", [])

/-- The loop of `generateSwitchConfig` over the listed switches, accumulating
the per-switch config entries (keyed by switch name) and the key files. -/
def genLoop (getSecret : String → String → Except String (List (String × String)))
    (credentialsPath : String) :
    List BareMetalSwitch →
      List (String × String) × List (String × String) →
      Except String (List (String × String) × List (String × String))
  | [], acc => .ok acc
  | sw :: rest, acc =>
    match writeSwitchEntry getSecret sw credentialsPath with
    | .error e =>
      .error ("failed to generate config for switch " ++ sw.Name ++ ": " ++ e)
    | .ok (entry, additions) =>
      genLoop getSecret credentialsPath rest
        (mapInsert acc.1 sw.Name entry,
          additions.foldl (fun m kv => mapInsert m kv.1 kv.2) acc.2)

/-- `generateSwitchConfig`: one entry per listed switch, fail-fast. -/
def generateSwitchConfig
    (getSecret : String → String → Except String (List (String × String)))
    (switches : List BareMetalSwitch) (credentialsPath : String) :
    Except String (List (String × String) × List (String × String)) :=
  genLoop getSecret credentialsPath switches ([], [])

/-- The assembly step of `updateSwitchConfigSecret`: the banner, then the
per-switch entries concatenated in sorted switch-name order (the names are
collected from the map and sorted for deterministic output). -/
def assembleSwitchConfig (configEntries : List (String × String)) : String :=
  let switchNames := (configEntries.map Prod.fst).mergeSort strLeB
  "# This file is managed by the Baremetal Operator\n\n" ++
    concatAll (switchNames.map (fun name => (assocLookup configEntries name).getD ""))

/-- `secretDataEqual`: equal sizes and every key of `a` present in `b` with
byte-equal value (Go nil and empty maps both have length zero). -/
def secretDataEqual (a b : List (String × String)) : Bool :=
  (a.length == b.length) &&
    a.all (fun kv =>
      match assocLookup b kv.1 with
      | some bv => bv == kv.2
      | none => false)

/-- A stored secret: its data plus an inert field standing for all other
stored fields (metadata, resource version, ...). -/
structure Secret where
  ResourceVersion : Nat
  Data : List (String × String)
deriving DecidableEq, Repr

/-- `updateSecretData` acting on the fetched secret: skip the update call when
the data is unchanged, else fully replace the data.  The Bool records whether
an update call was issued. -/
def updateSecretData (secret : Secret) (newData : List (String × String)) :
    Secret × Bool :=
  if secretDataEqual secret.Data newData then (secret, false)
  else ({ secret with Data := newData }, true)

/-! ## Specification-side definitions (renderings of the claims' words, to be
compared with the definitions embedded from the source) -/

/-- The host's `NetworkInterfacesValid` condition is present with status True. -/
def networkInterfacesValidIsTrue (host : BareMetalHost) : Prop :=
  ∃ c, findStatusCondition host.Status.Conditions
      ConditionNetworkInterfacesValid = some c ∧ c.Status = "True"

instance (host : BareMetalHost) : Decidable (networkInterfacesValidIsTrue host) :=
  match h : findStatusCondition host.Status.Conditions
      ConditionNetworkInterfacesValid with
  | some c =>
    if hs : c.Status = "True" then .isTrue ⟨c, h, hs⟩
    else .isFalse (by
      rintro ⟨c', hc', hs'⟩
      rw [h] at hc'
      cases hc'
      exact hs hs')
  | none => .isFalse (by
      rintro ⟨c', hc', _⟩
      rw [h] at hc'
      cases hc')

/-- The drift rules exactly as the claim states them, evaluated in order:
empty declared list with non-empty applied list; both empty; condition absent
or not True; applied list nil (unset, distinct from empty-but-set); declared
differs from applied by deep order-sensitive structural equality; otherwise
no update. -/
def needsUpdateSpec (host : BareMetalHost) : Bool × String :=
  if host.Spec.NetworkInterfaces = [] then
    if host.Status.AppliedNetworkInterfaces.getD [] ≠ [] then
      (true, "NetworkInterfacesRemoved")
    else (false, "")
  else if ¬ networkInterfacesValidIsTrue host then (false, "")
  else
    match host.Status.AppliedNetworkInterfaces with
    | none => (true, "InitialConfiguration")
    | some applied =>
      if host.Spec.NetworkInterfaces ≠ applied then
        (true, "NetworkInterfaceSpecChanged")
      else (false, "")

/-! ## Concrete scenario inputs used by witnesses and counterexamples -/

/-- Scenario B switch: `switch1` with password credentials, no optional
fields. -/
def scenarioBSwitch : BareMetalSwitch :=
  { Name := "switch1", Namespace := "test-ns",
    Spec := { Address := "192.168.1.1", MACAddress := "00:00:5e:00:53:01",
              Driver := "", DeviceType := "cisco_ios",
              Credentials := { CredType := "password",
                               SecretName := "switch1-creds" },
              Port := none, DisableCertificateVerification := none } }

/-- Scenario B credentials secret fetch. -/
def scenarioBGetSecret : String → String → Except String (List (String × String)) :=
  fun ns name =>
    if ns = "test-ns" ∧ name = "switch1-creds" then
      .ok [("username", "admin"), ("password", "secret123")]
    else .error "secret not found"

/-- An attachment whose spec fails field validation (native VLAN 5000). -/
def invalidVlanAttachment : HostNetworkAttachment :=
  ⟨"att", "ns", ⟨"access", 5000, [], none⟩⟩

/-- A port-reconciliation environment with five unique NICs (after
deduplication of a case-insensitive duplicate and an empty MAC) of which four
fail to ensure. -/
def c7Env : EnsurePortsEnv :=
  { bootMACAddress := "aa:bb:cc:dd:ee:01",
    switchPortConfigs := [],
    storedHardwareDetails := some ⟨[
      ⟨"eth0", "AA:BB:CC:DD:EE:01", true⟩,
      ⟨"eth0b", "aa:bb:cc:dd:ee:01", false⟩,
      ⟨"noMac", "", false⟩,
      ⟨"eth1", "aa:bb:cc:dd:ee:02", false⟩,
      ⟨"eth2", "aa:bb:cc:dd:ee:03", false⟩,
      ⟨"eth3", "aa:bb:cc:dd:ee:04", false⟩,
      ⟨"eth4", "aa:bb:cc:dd:ee:05", false⟩]⟩,
    listNodePorts := .ok [⟨"aa:bb:cc:dd:ee:02"⟩],
    ensurePort := fun nic _ _ _ => if nic.Name = "eth0" then none else some "boom",
    ensurePxePort := none }

/-- An attachment in namespace `ns-a` and a spec-changing replacement. -/
def c1Attachment : HostNetworkAttachment := ⟨"att", "ns-a", ⟨"access", 100, [], none⟩⟩

/-- The same attachment with a changed (still valid) spec. -/
def c1AttachmentNew : HostNetworkAttachment := ⟨"att", "ns-a", ⟨"access", 200, [], none⟩⟩

/-- A host in a different namespace referencing `c1Attachment` by an explicit
cross-namespace reference. -/
def c1CrossNsHost : BareMetalHost :=
  ⟨"host-b", "ns-b", ⟨[⟨"eth0", "", ⟨"att", "ns-a"⟩⟩]⟩, ⟨none, [], none⟩⟩

/-- The attachment of the same-namespace witness scenario. -/
def c1SameNsAttachment : HostNetworkAttachment :=
  ⟨"test-attachment", "test-ns", ⟨"access", 100, [], none⟩⟩

/-- A spec-changing valid replacement for the same-namespace scenario. -/
def c1SameNsAttachmentNew : HostNetworkAttachment :=
  ⟨"test-attachment", "test-ns", ⟨"access", 200, [], none⟩⟩

/-- The interface of the same-namespace referencing host. -/
def c1SameNsInterface : NetworkInterface := ⟨"eth0", "", ⟨"test-attachment", ""⟩⟩

/-- A host in the attachment's namespace referencing it. -/
def c1SameNsHost : BareMetalHost :=
  ⟨"host-with-ref", "test-ns", ⟨[c1SameNsInterface]⟩, ⟨none, [], none⟩⟩

/-- Comparison of config entries by switch name (the order of the final
assembly). -/
def pairLeB (p q : String × String) : Bool :=
  strLeB p.1 q.1

/-- Credentials backing the two switches of the determinism scenario. -/
def c5GetSecret : String → String → Except String (List (String × String)) :=
  fun _ name =>
    if name = "creds1" then .ok [("username", "u1"), ("password", "p1")]
    else if name = "creds2" then .ok [("username", "u2"), ("password", "p2")]
    else .error "missing"

/-- First switch of the determinism scenario. -/
def c5SwitchA : BareMetalSwitch :=
  ⟨"alpha", "ns",
    ⟨"10.0.0.1", "aa:aa:aa:aa:aa:01", "", "cisco_ios",
      ⟨"password", "creds1"⟩, none, none⟩⟩

/-- Second switch of the determinism scenario. -/
def c5SwitchB : BareMetalSwitch :=
  ⟨"beta", "ns",
    ⟨"10.0.0.2", "aa:aa:aa:aa:aa:02", "", "cisco_ios",
      ⟨"password", "creds2"⟩, none, none⟩⟩

/-! ## Helper lemmas: substrings and joins -/

theorem strStartsWith_append {n h : List Char} (t : List Char)
    (hs : strStartsWith n h = true) : strStartsWith n (h ++ t) = true := by
  induction n generalizing h with
  | nil => simp [strStartsWith]
  | cons a as ih =>
    cases h with
    | nil => simp [strStartsWith] at hs
    | cons b bs =>
      simp only [strStartsWith, Bool.and_eq_true] at hs
      simp only [List.cons_append, strStartsWith, Bool.and_eq_true]
      exact ⟨hs.1, ih hs.2⟩

theorem strStartsWith_refl (n : List Char) : strStartsWith n n = true := by
  induction n with
  | nil => simp [strStartsWith]
  | cons a as ih => simp [strStartsWith, ih]

theorem strHasSub_append_right {n b : List Char} (a : List Char)
    (hs : strHasSub n b = true) : strHasSub n (a ++ b) = true := by
  induction a with
  | nil => simpa using hs
  | cons x xs ih =>
    simp only [List.cons_append, strHasSub, Bool.or_eq_true]
    exact Or.inr ih

theorem strHasSub_of_startsWith {n h : List Char}
    (hs : strStartsWith n h = true) : strHasSub n h = true := by
  cases h with
  | nil => simpa [strHasSub] using hs
  | cons c cs => simp [strHasSub, hs]

theorem strHasSub_append_left {n a : List Char} (b : List Char)
    (hs : strHasSub n a = true) : strHasSub n (a ++ b) = true := by
  induction a with
  | nil =>
    cases n with
    | nil => exact strHasSub_of_startsWith (by simp [strStartsWith])
    | cons c cs => simp [strHasSub, strStartsWith] at hs
  | cons x xs ih =>
    simp only [strHasSub, Bool.or_eq_true] at hs
    simp only [List.cons_append, strHasSub, Bool.or_eq_true]
    cases hs with
    | inl h1 =>
      have := strStartsWith_append (h := x :: xs) b h1
      simpa using Or.inl this
    | inr h2 => exact Or.inr (ih h2)

theorem strContains_append_right (a b needle : String)
    (hs : strContains b needle = true) : strContains (a ++ b) needle = true := by
  unfold strContains at hs ⊢
  rw [String.data_append]
  exact strHasSub_append_right a.data hs

theorem strContains_append_left (a b needle : String)
    (hs : strContains a needle = true) : strContains (a ++ b) needle = true := by
  unfold strContains at hs ⊢
  rw [String.data_append]
  exact strHasSub_append_left b.data hs

theorem strContains_self (s : String) : strContains s s = true :=
  strHasSub_of_startsWith (strStartsWith_refl s.data)

theorem strContains_stringsJoin {x : String} {l : List String} (sep : String)
    (hx : x ∈ l) : strContains (stringsJoin l sep) x = true := by
  induction l with
  | nil => cases hx
  | cons s rest ih =>
    cases rest with
    | nil =>
      have hxs : x = s := by simpa using hx
      subst hxs
      exact strContains_self x
    | cons t ts =>
      rcases List.mem_cons.mp hx with h | h
      · subst h
        show strContains (x ++ sep ++ stringsJoin (t :: ts) sep) x = true
        exact strContains_append_left _ _ _
          (strContains_append_left _ _ _ (strContains_self x))
      · show strContains (s ++ sep ++ stringsJoin (t :: ts) sep) x = true
        exact strContains_append_right _ _ _ (ih h)

/-! ## Claim C4: scenario-B switch entry bytes -/

/-- C4: `writeSwitchEntry` on switch `switch1` with password credentials
admin/secret123, address 192.168.1.1, MAC 00:00:5e:00:53:01, device type
cisco_ios and no optional fields records under key `switch1` exactly the
expected section bytes (fixed field order, defaulted driver, one trailing
blank line) and adds no key file. -/
theorem claimC4_writeSwitchEntry_scenarioB (credentialsPath : String) :
    generateSwitchConfig scenarioBGetSecret [scenarioBSwitch] credentialsPath =
      .ok ([("switch1",
        "[switch:switch1]\naddress=192.168.1.1\nmac_address=00:00:5e:00:53:01\ndriver_type=generic-switch\ndevice_type=cisco_ios\nusername=admin\npassword=secret123\n\n")],
        []) := rfl

/-! ## Claim C10: metadata-only updates skip field validation -/

/-- C10: when the old and new specs are deeply equal, `validateUpdate` allows
the update for every client outcome, even when the (unchanged) spec fails
field-level validation: the validation errors are computed first but discarded
on the unchanged-spec early return. -/
theorem claimC10_unchangedSpecAdmitted (client : BMHListResult)
    (oldAttachment newAttachment : HostNetworkAttachment)
    (hspec : oldAttachment.Spec = newAttachment.Spec)
    (hinvalid : validateAttachment newAttachment ≠ []) :
    validateUpdate client oldAttachment newAttachment = .ok () := by
  have hne := hinvalid
  unfold validateUpdate
  simp [hspec]

/-- C10 witness: a metadata-only update of an attachment with native VLAN
5000 is admitted even though field validation rejects that spec, and even
when the reference lookup would fail. -/
theorem claimC10_unchangedSpecAdmitted_witness :
    validateAttachment invalidVlanAttachment ≠ [] ∧
      validateUpdate (.failure "index unavailable") invalidVlanAttachment
        invalidVlanAttachment = .ok () :=
  ⟨by decide,
    claimC10_unchangedSpecAdmitted _ _ _ rfl (by decide)⟩

/-! ## Claim C3: drift-detection rules -/

theorem networkInterfaceValidationPassed_iff (host : BareMetalHost) :
    networkInterfaceValidationPassed host = true ↔
      networkInterfacesValidIsTrue host := by
  unfold networkInterfaceValidationPassed networkInterfacesValidIsTrue
  cases h : findStatusCondition host.Status.Conditions
      ConditionNetworkInterfacesValid with
  | none => simp
  | some c => simp [beq_iff_eq]

/-- C3: the drift detector evaluates exactly the rules the claim states, in
order: interfaces removed; both lists empty; validity condition absent or not
True; applied list unset; deep order-sensitive inequality; otherwise no
update. -/
theorem claimC3_needsUpdate_rules (host : BareMetalHost) :
    switchPortConfigurationNeedsUpdate host = needsUpdateSpec host := by
  unfold switchPortConfigurationNeedsUpdate needsUpdateSpec
  by_cases h1 : host.Spec.NetworkInterfaces = []
  · have hl : host.Spec.NetworkInterfaces.length = 0 := by simp [h1]
    rw [if_pos hl, if_pos h1]
    by_cases h2 : host.Status.AppliedNetworkInterfaces.getD [] = []
    · rw [if_neg (by simp [h2]), if_neg (by simp [h2])]
    · rw [if_pos (by simpa [List.length_pos] using h2), if_pos h2]
  · rw [if_neg (by simpa [List.length_eq_zero] using h1), if_neg h1]
    cases hb : networkInterfaceValidationPassed host with
    | false =>
      have hnp : ¬ networkInterfacesValidIsTrue host := by
        rw [← networkInterfaceValidationPassed_iff, hb]
        simp
      rw [if_pos (by simp [hb]), if_pos hnp]
    | true =>
      have hp : networkInterfacesValidIsTrue host :=
        (networkInterfaceValidationPassed_iff host).mp hb
      rw [if_neg (by simp [hb]), if_neg (not_not_intro hp)]

/-! ## Claim C6: attachment resolution skips missing, aborts on failure -/

theorem resolveLoop_error_iff
    (client : String → String → AttachmentGetResult) (hostNamespace : String)
    (ifaces : List NetworkInterface) (configs : List (String × SwitchPortConfig)) :
    (∃ e, resolveLoop client hostNamespace ifaces configs = .error e) ↔
      ∃ netIf ∈ ifaces,
        (interfaceAttachmentGet client hostNamespace netIf).isFailed = true := by
  induction ifaces generalizing configs with
  | nil => simp [resolveLoop]
  | cons netIf rest ih =>
    show (∃ e, resolveLoop client hostNamespace (netIf :: rest) configs = .error e) ↔ _
    rw [resolveLoop]
    cases hg : interfaceAttachmentGet client hostNamespace netIf with
    | notFound =>
      rw [show client _ netIf.HostNetworkAttachment.Name =
        AttachmentGetResult.notFound from hg]
      simp only [List.mem_cons]
      rw [ih configs]
      constructor
      · rintro ⟨i, hi, hf⟩
        exact ⟨i, Or.inr hi, hf⟩
      · rintro ⟨i, hi | hi, hf⟩
        · subst hi
          rw [hg] at hf
          cases hf
        · exact ⟨i, hi, hf⟩
    | failed msg =>
      rw [show client _ netIf.HostNetworkAttachment.Name =
        AttachmentGetResult.failed msg from hg]
      constructor
      · intro _
        exact ⟨netIf, List.mem_cons_self _ _, by rw [hg]; rfl⟩
      · intro _
        exact ⟨_, rfl⟩
    | found spec =>
      rw [show client _ netIf.HostNetworkAttachment.Name =
        AttachmentGetResult.found spec from hg]
      simp only [List.mem_cons]
      rw [ih]
      constructor
      · rintro ⟨i, hi, hf⟩
        exact ⟨i, Or.inr hi, hf⟩
      · rintro ⟨i, hi | hi, hf⟩
        · subst hi
          rw [hg] at hf
          cases hf
        · exact ⟨i, hi, hf⟩

theorem resolveLoop_skips_notFound
    (client : String → String → AttachmentGetResult) (hostNamespace : String)
    (ifaces : List NetworkInterface) (configs : List (String × SwitchPortConfig)) :
    resolveLoop client hostNamespace ifaces configs =
      resolveLoop client hostNamespace
        (ifaces.filter (fun netIf =>
          !((interfaceAttachmentGet client hostNamespace netIf).isNotFound)))
        configs := by
  induction ifaces generalizing configs with
  | nil => rfl
  | cons netIf rest ih =>
    rw [List.filter_cons]
    cases hg : interfaceAttachmentGet client hostNamespace netIf with
    | notFound =>
      rw [if_neg (by decide :
        ¬ ((!(AttachmentGetResult.notFound.isNotFound)) = true))]
      rw [resolveLoop]
      rw [show client _ netIf.HostNetworkAttachment.Name =
        AttachmentGetResult.notFound from hg]
      exact ih configs
    | failed msg =>
      rw [if_pos (show (!((AttachmentGetResult.failed msg).isNotFound)) = true
        from by rfl)]
      rw [resolveLoop, resolveLoop]
      rw [show client _ netIf.HostNetworkAttachment.Name =
        AttachmentGetResult.failed msg from hg]
    | found spec =>
      rw [if_pos (show (!((AttachmentGetResult.found spec).isNotFound)) = true
        from by rfl)]
      rw [resolveLoop, resolveLoop]
      rw [show client _ netIf.HostNetworkAttachment.Name =
        AttachmentGetResult.found spec from hg]
      exact ih _

/-- C6: resolution (a) returns an error exactly when some interface's
attachment fetch fails for a reason other than not-found (and then no partial
map is returned, the result being an error), (b) is unchanged when the
interfaces whose attachment is not found are dropped from the declared list
(they are skipped without error), and (c) on a host whose sole interface
references a missing attachment returns no error and the empty map. -/
theorem claimC6_resolveSwitchPortConfigs (client : String → String → AttachmentGetResult)
    (host : BareMetalHost) :
    ((∃ e, resolveSwitchPortConfigs client host = .error e) ↔
      ∃ netIf ∈ host.Spec.NetworkInterfaces,
        (interfaceAttachmentGet client host.Namespace netIf).isFailed = true)
    ∧ resolveSwitchPortConfigs client host =
        resolveSwitchPortConfigs client
          { host with Spec := { NetworkInterfaces :=
              host.Spec.NetworkInterfaces.filter (fun netIf =>
                !((interfaceAttachmentGet client host.Namespace netIf).isNotFound)) } }
    ∧ (∀ netIf, host.Spec.NetworkInterfaces = [netIf] →
        (interfaceAttachmentGet client host.Namespace netIf).isNotFound = true →
        resolveSwitchPortConfigs client host = .ok []) := by
  refine ⟨resolveLoop_error_iff client host.Namespace _ [], ?_, ?_⟩
  · exact resolveLoop_skips_notFound client host.Namespace _ []
  · intro netIf hifaces hnf
    unfold resolveSwitchPortConfigs
    rw [hifaces, resolveLoop_skips_notFound]
    rw [show (List.filter (fun i =>
      !((interfaceAttachmentGet client host.Namespace i).isNotFound)) [netIf]) = []
      from by rw [List.filter_cons, hnf]; rfl]
    rfl

/-- C6 witness: a host whose sole interface references a non-existent
attachment resolves with no error to the empty map. -/
theorem claimC6_resolveSwitchPortConfigs_witness :
    resolveSwitchPortConfigs (fun _ _ => .notFound)
      ⟨"host-a", "ns-a", ⟨[⟨"eth0", "", ⟨"missing-att", ""⟩⟩]⟩, ⟨none, [], none⟩⟩ =
      .ok [] :=
  (claimC6_resolveSwitchPortConfigs (fun _ _ => .notFound) _).2.2 _ rfl rfl

/-! ## Claim C7: per-NIC failure aggregation in ensurePorts -/

theorem foldl_collect_failures (f : NIC → Option String) (l : List NIC)
    (acc : List String) :
    l.foldl (fun acc nic =>
      match f nic with
      | some failure => acc ++ [failure]
      | none => acc) acc = acc ++ l.filterMap f := by
  induction l generalizing acc with
  | nil => simp
  | cons n rest ih =>
    rw [List.foldl_cons, List.filterMap_cons]
    cases hf : f n with
    | none => rw [ih]
    | some e =>
      rw [ih, List.append_assoc]
      rfl

/-- C7: with stored hardware details and a successful port listing,
`ensurePorts` processes every deduplicated NIC (later NICs are processed
regardless of earlier failures, the failure list being the `filterMap` of the
per-NIC outcome over the whole deduplicated list), returns no error exactly
when no per-NIC failure occurred, and otherwise returns the single aggregate
error naming at most the first three failures as `interface(MAC): cause`
together with the failed and total counts. -/
theorem claimC7_ensurePorts_aggregation (env : EnsurePortsEnv)
    (nics : List NIC) (ports : List Port)
    (hhw : env.storedHardwareDetails = some ⟨nics⟩)
    (hlist : env.listNodePorts = .ok ports) :
    ensurePorts env =
      (let portsByMAC := ports.foldl
        (fun m port => mapInsert m (strToLower port.Address) port) []
      let failures :=
        (deduplicateNICsByMAC nics).filterMap (ensureOneNIC env portsByMAC)
      if failures = [] then none
      else some (ensurePortsAggregate failures (deduplicateNICsByMAC nics).length)) := by
  simp only [ensurePorts, hhw, hlist]
  rw [foldl_collect_failures, List.nil_append]
  cases hf : (deduplicateNICsByMAC nics).filterMap
      (ensureOneNIC env (ports.foldl
        (fun m port => mapInsert m (strToLower port.Address) port) [])) with
  | nil => simp
  | cons a rest =>
    rw [if_pos (show (a :: rest).length > 0 by simp)]
    rw [if_neg (show ¬ (a :: rest = []) by simp)]
    rfl

/-! ## Claim C2: which attachments report an out-of-range error -/

theorem validateVLANID_some_bad {v : Int} {e : String}
    (h : validateVLANID v = some e) : v < 1 ∨ v > 4094 := by
  unfold validateVLANID at h
  by_cases hv : (v < 1 ∨ v > 4094)
  · exact hv
  · simp [hv] at h

theorem validateVLANID_some_contains {v : Int} {e : String}
    (h : validateVLANID v = some e) : strContains e "out of range" = true := by
  unfold validateVLANID at h
  by_cases hv : (v < 1 ∨ v > 4094)
  · rw [if_pos hv] at h
    cases h
    exact strContains_append_right _ _ _ (by decide)
  · simp [hv] at h

theorem validateVLANID_bad_some {v : Int} (hv : v < 1 ∨ v > 4094) :
    validateVLANID v = some ("VLAN ID " ++ toString v ++ " is out of range (1-4094)") := by
  unfold validateVLANID
  rw [if_pos hv]

theorem validateVLANList_eq_none_iff (vlans : List Int) :
    validateVLANList vlans = none ↔ ∀ v ∈ vlans, ¬(v < 1 ∨ v > 4094) := by
  induction vlans with
  | nil => simp [validateVLANList]
  | cons v rest ih =>
    unfold validateVLANList
    cases hv : validateVLANID v with
    | some e =>
      have hbad := validateVLANID_some_bad hv
      simp only [List.mem_cons]
      constructor
      · intro h
        cases h
      · intro hall
        exact absurd hbad (hall v (Or.inl rfl))
    | none =>
      have hgood : ¬(v < 1 ∨ v > 4094) := by
        intro hv2
        rw [validateVLANID_bad_some hv2] at hv
        cases hv
      rw [ih]
      constructor
      · intro hall w hw
        rcases List.mem_cons.mp hw with hw | hw
        · subst hw
          exact hgood
        · exact hall w hw
      · intro hall w hw
        exact hall w (List.mem_cons_of_mem _ hw)

theorem validateVLANList_some_exists {vlans : List Int} {e : String}
    (h : validateVLANList vlans = some e) :
    (∃ v ∈ vlans, (v < 1 ∨ v > 4094)) ∧ strContains e "out of range" = true := by
  induction vlans with
  | nil => simp [validateVLANList] at h
  | cons v rest ih =>
    unfold validateVLANList at h
    cases hv : validateVLANID v with
    | some e0 =>
      rw [hv] at h
      cases h
      exact ⟨⟨v, List.mem_cons_self _ _, validateVLANID_some_bad hv⟩,
        validateVLANID_some_contains hv⟩
    | none =>
      rw [hv] at h
      obtain ⟨⟨w, hw, hbad⟩, hc⟩ := ih h
      exact ⟨⟨w, List.mem_cons_of_mem _ hw, hbad⟩, hc⟩

theorem hasOutOfRange_append (l1 l2 : List String) :
    hasOutOfRange (l1 ++ l2) = (hasOutOfRange l1 || hasOutOfRange l2) :=
  List.any_append

theorem hasOutOfRange_validateMTU (a : HostNetworkAttachment) :
    hasOutOfRange (validateMTU a).toList = true ↔
      ∃ mtu, a.Spec.MTU = some mtu ∧ (mtu < 68 ∨ mtu > 9000) := by
  cases hm : a.Spec.MTU with
  | none => simp [validateMTU, hm, hasOutOfRange]
  | some m =>
    simp only [validateMTU, hm]
    by_cases hbad : (m < 68 ∨ m > 9000)
    · rw [if_pos hbad]
      simp only [hasOutOfRange, Option.toList_some, List.any_cons, List.any_nil,
        Bool.or_false]
      constructor
      · intro _
        exact ⟨m, rfl, hbad⟩
      · intro _
        exact strContains_append_right _ _ _ (by decide)
    · rw [if_neg hbad]
      simp only [hasOutOfRange, Option.toList_none, List.any_nil,
        Bool.false_eq_true, false_iff]
      rintro ⟨mtu, hmtu, hb⟩
      cases hmtu
      exact hbad hb

theorem hasOutOfRange_validateSwitchport (a : HostNetworkAttachment)
    (hmode : a.Spec.Mode = "access" ∨ a.Spec.Mode = "trunk" ∨
      a.Spec.Mode = "hybrid") :
    hasOutOfRange (validateSwitchportConfiguration a).toList = true ↔
      (((a.Spec.Mode = "trunk" ∨ a.Spec.Mode = "hybrid") ∧
          ∃ v ∈ a.Spec.AllowedVLANs, (v < 1 ∨ v > 4094))
       ∨ ((a.Spec.NativeVLAN < 1 ∨ a.Spec.NativeVLAN > 4094) ∧
            (a.Spec.Mode = "access" → a.Spec.AllowedVLANs = []))) := by
  simp only [validateSwitchportConfiguration]
  rcases hmode with h | h | h
  all_goals rw [h]
  · -- access mode
    rw [if_pos rfl]
    cases hA : a.Spec.AllowedVLANs with
    | cons v rest =>
      rw [if_pos (by simp)]
      simp only [hasOutOfRange, Option.toList_some, List.any_cons, List.any_nil,
        Bool.or_false]
      rw [show strContains "allowedVlans cannot be specified for access mode"
        "out of range" = false from by decide]
      simp
    | nil =>
      rw [if_neg (by simp)]
      by_cases hn : (a.Spec.NativeVLAN < 1 ∨ a.Spec.NativeVLAN > 4094)
      · rw [validateVLANID_bad_some hn]
        simp only [hasOutOfRange, Option.toList_some, List.any_cons, List.any_nil,
          Bool.or_false]
        rw [strContains_append_right _ _ _
          (strContains_append_right _ _ _ (by decide))]
        simp [hn]
      · rw [show validateVLANID a.Spec.NativeVLAN = none from by
          unfold validateVLANID; rw [if_neg hn]]
        simp [hasOutOfRange, hn]
  · -- trunk mode
    rw [if_neg (by decide), if_pos (Or.inl rfl)]
    cases hl : validateVLANList a.Spec.AllowedVLANs with
    | some e =>
      obtain ⟨hex, hc⟩ := validateVLANList_some_exists hl
      simp only [hasOutOfRange, Option.toList_some, List.any_cons, List.any_nil,
        Bool.or_false]
      rw [strContains_append_right _ _ _ hc]
      simp [hex]
    | none =>
      have hgood := (validateVLANList_eq_none_iff _).mp hl
      by_cases hn : (a.Spec.NativeVLAN < 1 ∨ a.Spec.NativeVLAN > 4094)
      · rw [validateVLANID_bad_some hn]
        simp only [hasOutOfRange, Option.toList_some, List.any_cons, List.any_nil,
          Bool.or_false]
        rw [strContains_append_right _ _ _
          (strContains_append_right _ _ _ (by decide))]
        simp [hn]
      · rw [show validateVLANID a.Spec.NativeVLAN = none from by
          unfold validateVLANID; rw [if_neg hn]]
        simp only [hasOutOfRange, Option.toList_none, List.any_nil,
          Bool.false_eq_true, false_iff]
        rintro (⟨_, ⟨w, hw, hb⟩⟩ | ⟨hb, _⟩)
        · exact hgood w hw hb
        · exact hn hb
  · -- hybrid mode
    rw [if_neg (by decide), if_pos (Or.inr rfl)]
    cases hl : validateVLANList a.Spec.AllowedVLANs with
    | some e =>
      obtain ⟨hex, hc⟩ := validateVLANList_some_exists hl
      simp only [hasOutOfRange, Option.toList_some, List.any_cons, List.any_nil,
        Bool.or_false]
      rw [strContains_append_right _ _ _ hc]
      simp [hex]
    | none =>
      have hgood := (validateVLANList_eq_none_iff _).mp hl
      by_cases hn : (a.Spec.NativeVLAN < 1 ∨ a.Spec.NativeVLAN > 4094)
      · rw [validateVLANID_bad_some hn]
        simp only [hasOutOfRange, Option.toList_some, List.any_cons, List.any_nil,
          Bool.or_false]
        rw [strContains_append_right _ _ _
          (strContains_append_right _ _ _ (by decide))]
        simp [hn]
      · rw [show validateVLANID a.Spec.NativeVLAN = none from by
          unfold validateVLANID; rw [if_neg hn]]
        simp only [hasOutOfRange, Option.toList_none, List.any_nil,
          Bool.false_eq_true, false_iff]
        rintro (⟨_, ⟨w, hw, hb⟩⟩ | ⟨hb, _⟩)
        · exact hgood w hw hb
        · exact hn hb

/-- C2 counterexample: for mode access with a non-empty allowedVLANs list and
native VLAN 0 (outside [1,4094]) the error list contains no "out of range"
error — the access-mode check short-circuits the native-VLAN check — so the
claimed equivalence fails as stated. -/
theorem claimC2_counterexample :
    (HostNetworkAttachment.Spec ⟨"att", "ns", ⟨"access", 0, [100], none⟩⟩).NativeVLAN < 1 ∧
      hasOutOfRange (validateAttachment ⟨"att", "ns", ⟨"access", 0, [100], none⟩⟩) = false := by
  decide

/-- C2 (amended): for attachments whose mode is one of access/trunk/hybrid,
the error list contains an error mentioning "out of range" exactly when the
MTU is present and outside [68,9000], or the mode is trunk/hybrid and some
allowedVLANs entry is outside [1,4094], or the native VLAN is outside [1,4094]
and the mode-specific VLAN check passed first (for access mode this requires
an empty allowedVLANs list, so the native-VLAN range is NOT reported
independently of mode). -/
theorem claimC2_outOfRange_characterization (a : HostNetworkAttachment)
    (hmode : a.Spec.Mode = "access" ∨ a.Spec.Mode = "trunk" ∨
      a.Spec.Mode = "hybrid") :
    hasOutOfRange (validateAttachment a) = true ↔
      ((∃ mtu, a.Spec.MTU = some mtu ∧ (mtu < 68 ∨ mtu > 9000))
       ∨ ((a.Spec.Mode = "trunk" ∨ a.Spec.Mode = "hybrid") ∧
            ∃ v ∈ a.Spec.AllowedVLANs, (v < 1 ∨ v > 4094))
       ∨ ((a.Spec.NativeVLAN < 1 ∨ a.Spec.NativeVLAN > 4094) ∧
            (a.Spec.Mode = "access" → a.Spec.AllowedVLANs = []))) := by
  unfold validateAttachment
  rw [hasOutOfRange_append, Bool.or_eq_true,
    hasOutOfRange_validateSwitchport a hmode, hasOutOfRange_validateMTU a]
  exact or_comm

/-- C2 witness: a trunk-mode attachment with a bad allowed VLAN reports "out
of range" as the amended characterization predicts. -/
theorem claimC2_outOfRange_characterization_witness :
    hasOutOfRange (validateAttachment ⟨"att", "ns", ⟨"trunk", 1, [5000], none⟩⟩) = true :=
  (claimC2_outOfRange_characterization ⟨"att", "ns", ⟨"trunk", 1, [5000], none⟩⟩
      (Or.inr (Or.inl rfl))).mpr
    (Or.inr (Or.inl ⟨Or.inl rfl, 5000, by decide⟩))

/-! ## Helper lemmas: association-list lookup -/

theorem assocLookup_eq_some_iff {β : Type} {m : List (String × β)} {k : String}
    {v : β} (hnd : (m.map Prod.fst).Nodup) :
    assocLookup m k = some v ↔ (k, v) ∈ m := by
  induction m with
  | nil => simp [assocLookup]
  | cons p rest ih =>
    rw [List.map_cons, List.nodup_cons] at hnd
    unfold assocLookup
    rw [List.find?_cons]
    by_cases hk : p.1 = k
    · rw [show (p.1 == k) = true from beq_iff_eq.mpr hk]
      simp only [Option.map_some', Option.some.injEq, List.mem_cons]
      constructor
      · intro hv
        subst hv
        subst hk
        exact Or.inl rfl
      · rintro (hp | hmem)
        · rw [← hp]
        · exfalso
          apply hnd.1
          rw [hk]
          exact List.mem_map.mpr ⟨(k, v), hmem, rfl⟩
    · rw [show (p.1 == k) = false from beq_eq_false_iff_ne.mpr hk]
      rw [show (Option.map Prod.snd (List.find? (fun q => q.1 == k) rest)) =
        assocLookup rest k from rfl]
      rw [ih hnd.2]
      simp only [List.mem_cons]
      constructor
      · exact Or.inr
      · rintro (hp | hmem)
        · exfalso
          apply hk
          rw [← hp]
        · exact hmem

theorem assocLookup_eq_none_iff {β : Type} {m : List (String × β)} {k : String} :
    assocLookup m k = none ↔ k ∉ m.map Prod.fst := by
  unfold assocLookup
  rw [Option.map_eq_none', List.find?_eq_none]
  constructor
  · intro hall hk
    obtain ⟨p, hp, hfst⟩ := List.mem_map.mp hk
    exact absurd (beq_iff_eq.mpr hfst) (by simpa using hall p hp)
  · intro hk p hp hbeq
    exact hk (List.mem_map.mpr ⟨p, hp, beq_iff_eq.mp hbeq⟩)

theorem assocLookup_mem {β : Type} {m : List (String × β)} {p : String × β}
    (hnd : (m.map Prod.fst).Nodup) (hp : p ∈ m) :
    assocLookup m p.1 = some p.2 :=
  (assocLookup_eq_some_iff hnd).mpr (by rw [Prod.mk.eta]; exact hp)

/-! ## Claim C8: secret updates skipped exactly on data equality -/

theorem secretDataEqual_iff {a b : List (String × String)}
    (ha : (a.map Prod.fst).Nodup) (hb : (b.map Prod.fst).Nodup) :
    secretDataEqual a b = true ↔ ∀ k, assocLookup a k = assocLookup b k := by
  unfold secretDataEqual
  rw [Bool.and_eq_true, beq_iff_eq, List.all_eq_true]
  constructor
  · rintro ⟨hlen, hall⟩ k
    have hallb : ∀ kv ∈ a, assocLookup b kv.1 = some kv.2 := by
      intro kv hkv
      have hm := hall kv hkv
      cases hlb : assocLookup b kv.1 with
      | none =>
        rw [hlb] at hm
        cases hm
      | some bv =>
        rw [hlb] at hm
        rw [show bv = kv.2 from beq_iff_eq.mp hm]
    cases hla : assocLookup a k with
    | some v =>
      rw [hallb (k, v) ((assocLookup_eq_some_iff ha).mp hla)]
    | none =>
      have hknot := assocLookup_eq_none_iff.mp hla
      have hsub : a.map Prod.fst ⊆ b.map Prod.fst := by
        intro x hx
        obtain ⟨p, hp, hfst⟩ := List.mem_map.mp hx
        by_contra hc
        have hn := assocLookup_eq_none_iff.mpr hc
        rw [← hfst] at hn
        rw [hallb p hp] at hn
        cases hn
      have hperm : (a.map Prod.fst).Perm (b.map Prod.fst) :=
        (List.subperm_of_subset ha hsub).perm_of_length_le
          (by rw [List.length_map, List.length_map, hlen])
      symm
      rw [assocLookup_eq_none_iff]
      intro hkb
      exact hknot (hperm.mem_iff.mpr hkb)
  · intro hagree
    have hsub1 : a.map Prod.fst ⊆ b.map Prod.fst := by
      intro x hx
      obtain ⟨p, hp, hfst⟩ := List.mem_map.mp hx
      by_contra hc
      have hn := assocLookup_eq_none_iff.mpr hc
      rw [← hagree] at hn
      rw [← hfst] at hn
      rw [assocLookup_mem ha hp] at hn
      cases hn
    have hsub2 : b.map Prod.fst ⊆ a.map Prod.fst := by
      intro x hx
      obtain ⟨p, hp, hfst⟩ := List.mem_map.mp hx
      by_contra hc
      have hn := assocLookup_eq_none_iff.mpr hc
      rw [hagree] at hn
      rw [← hfst] at hn
      rw [assocLookup_mem hb hp] at hn
      cases hn
    refine ⟨?_, ?_⟩
    · have h1 := (List.subperm_of_subset ha hsub1).length_le
      have h2 := (List.subperm_of_subset hb hsub2).length_le
      rw [List.length_map, List.length_map] at h1 h2
      omega
    · intro kv hkv
      rw [← hagree kv.1, assocLookup_mem ha hkv]
      simp

/-- C8: with well-formed (duplicate-free) data maps, `updateSecretData`
issues no update call and leaves the stored secret entirely unchanged exactly
when the new map equals the current data key-for-key with equal values
(order-independent; nil and empty maps are both the empty map), and otherwise
fully replaces the secret's data with the new map, touching nothing else. -/
theorem claimC8_updateSecretData (secret : Secret)
    (newData : List (String × String))
    (ha : (secret.Data.map Prod.fst).Nodup)
    (hb : (newData.map Prod.fst).Nodup) :
    ((∀ k, assocLookup secret.Data k = assocLookup newData k) ↔
      updateSecretData secret newData = (secret, false))
    ∧ ((¬ ∀ k, assocLookup secret.Data k = assocLookup newData k) ↔
      updateSecretData secret newData = ({ secret with Data := newData }, true)) := by
  unfold updateSecretData
  by_cases he : secretDataEqual secret.Data newData = true
  · rw [if_pos he]
    have hiff := (secretDataEqual_iff ha hb).mp he
    refine ⟨⟨fun _ => rfl, fun _ => hiff⟩, ?_, ?_⟩
    · intro hn
      exact absurd hiff hn
    · intro heq
      exact absurd (congrArg Prod.snd heq) (by simp)
  · rw [if_neg he]
    have hniff : ¬ ∀ k, assocLookup secret.Data k = assocLookup newData k :=
      fun hall => he ((secretDataEqual_iff ha hb).mpr hall)
    refine ⟨⟨fun hall => absurd hall hniff, ?_⟩, fun _ => rfl, fun _ => hniff⟩
    intro heq
    exact absurd (congrArg Prod.snd heq) (by simp)

/-- C8 witness: reordered but pointwise-equal data causes no update call and
an unchanged stored secret, and the pointwise equality itself follows from
the theorem. -/
theorem claimC8_updateSecretData_witness :
    updateSecretData ⟨7, [("a", "x"), ("b", "y")]⟩ [("b", "y"), ("a", "x")] =
      (⟨7, [("a", "x"), ("b", "y")]⟩, false) ∧
      (∀ k, assocLookup [("a", "x"), ("b", "y")] k =
        assocLookup [("b", "y"), ("a", "x")] k) :=
  ⟨by decide,
    (claimC8_updateSecretData ⟨7, [("a", "x"), ("b", "y")]⟩
        [("b", "y"), ("a", "x")] (by decide) (by decide)).1.mpr (by decide)⟩

/-! ## Claim C1: the reference guard -/

theorem refPair_mem_findBMHReferences
    (store : List BareMetalHost) (att : HostNetworkAttachment)
    (bmh : BareMetalHost) (netIf : NetworkInterface)
    (hmem : bmh ∈ store) (hns : bmh.Namespace = att.Namespace)
    (hif : netIf ∈ bmh.Spec.NetworkInterfaces)
    (hname : netIf.HostNetworkAttachment.Name = att.Name)
    (hnne : att.Name ≠ "")
    (heff : effectiveRefNamespace netIf bmh = att.Namespace) :
    refPairString bmh netIf ∈ findBMHReferences store att := by
  unfold findBMHReferences
  rw [List.mem_flatMap]
  refine ⟨bmh, ?_, ?_⟩
  · unfold clientListBMHs
    rw [List.mem_filter]
    refine ⟨hmem, ?_⟩
    rw [decide_eq_true_eq]
    refine ⟨hns, ?_⟩
    unfold bmhIndexKeys
    rw [List.mem_filterMap]
    refine ⟨netIf, hif, ?_⟩
    rw [if_pos (by rw [hname]; exact hnne)]
    rw [heff, hname]
    rfl
  · rw [List.mem_filterMap]
    refine ⟨netIf, hif, ?_⟩
    rw [if_pos ⟨hname, heff⟩]
    rfl

/-- C1 counterexample: a host in namespace `ns-b` whose interface explicitly
references attachment `ns-a/att` (reference namespace equal to the
attachment's namespace) is not seen by the namespace-restricted reference
lookup, so a spec-changing update and the delete are both allowed. -/
theorem claimC1_counterexample :
    (c1CrossNsHost.Spec.NetworkInterfaces = [⟨"eth0", "", ⟨"att", "ns-a"⟩⟩]
      ∧ (HostNetworkAttachmentRef.Name ⟨"att", "ns-a"⟩) = c1Attachment.Name
      ∧ effectiveRefNamespace ⟨"eth0", "", ⟨"att", "ns-a"⟩⟩ c1CrossNsHost =
          c1Attachment.Namespace
      ∧ c1Attachment.Spec ≠ c1AttachmentNew.Spec)
    ∧ validateUpdate (.ok [c1CrossNsHost]) c1Attachment c1AttachmentNew = .ok ()
    ∧ validateDelete (.ok [c1CrossNsHost]) c1Attachment = .ok () :=
  ⟨by decide, rfl, rfl⟩

/-- C1 (amended): the reference guard as implemented.  For every referencing
host that lives in the attachment's namespace (the list call restricts to
that namespace, so cross-namespace referencing hosts in other namespaces are
not detected), a spec-changing update is rejected with an error naming the
referencing host/interface pair, and a delete is rejected likewise; a
reference-lookup failure rejects both the (spec-changing) update and the
delete; and with no references found, a field-valid spec-changing update and
a delete are both allowed. -/
theorem claimC1_referenceGuard
    (store : List BareMetalHost)
    (oldAttachment newAttachment : HostNetworkAttachment)
    (bmh : BareMetalHost) (netIf : NetworkInterface) (failMsg : String) :
    ((bmh ∈ store → bmh.Namespace = oldAttachment.Namespace →
      netIf ∈ bmh.Spec.NetworkInterfaces →
      netIf.HostNetworkAttachment.Name = oldAttachment.Name →
      oldAttachment.Name ≠ "" →
      effectiveRefNamespace netIf bmh = oldAttachment.Namespace →
      oldAttachment.Spec ≠ newAttachment.Spec →
      (∃ errs, validateUpdate (.ok store) oldAttachment newAttachment =
          .error errs ∧
        ∃ e ∈ errs, strContains e (refPairString bmh netIf) = true) ∧
      (∃ e, validateDelete (.ok store) oldAttachment = .error e ∧
        strContains e (refPairString bmh netIf) = true))
    ∧ (oldAttachment.Spec ≠ newAttachment.Spec →
        ∃ errs, validateUpdate (.failure failMsg) oldAttachment newAttachment =
          .error errs)
    ∧ (∃ e, validateDelete (.failure failMsg) oldAttachment = .error e)
    ∧ (findBMHReferences store oldAttachment = [] →
        validateAttachment newAttachment = [] →
        validateUpdate (.ok store) oldAttachment newAttachment = .ok () ∧
        validateDelete (.ok store) oldAttachment = .ok ())) := by
  refine ⟨?_, ?_, ?_, ?_⟩
  · intro hmem hns hif hname hnne heff hspec
    have hpair := refPair_mem_findBMHReferences store oldAttachment bmh netIf
      hmem hns hif hname hnne heff
    have hlen : (findBMHReferences store oldAttachment).length > 0 :=
      List.length_pos.mpr (List.ne_nil_of_mem hpair)
    constructor
    · refine ⟨validateAttachment newAttachment ++
        ["HostNetworkAttachment spec is immutable while referenced by BMH interfaces: " ++
          stringsJoin (findBMHReferences store oldAttachment) ", "], ?_, ?_⟩
      · simp only [validateUpdate, findBMHReferencesE]
        rw [if_neg hspec, if_pos hlen]
        rw [if_pos (by simp)]
      · refine ⟨_, List.mem_append_right _ (List.mem_singleton.mpr rfl), ?_⟩
        exact strContains_append_right _ _ _
          (strContains_stringsJoin ", " hpair)
    · refine ⟨"cannot delete attachment while referenced by BMH interfaces: " ++
        stringsJoin (findBMHReferences store oldAttachment) ", ", ?_, ?_⟩
      · simp only [validateDelete, findBMHReferencesE]
        rw [if_pos hlen]
      · exact strContains_append_right _ _ _
          (strContains_stringsJoin ", " hpair)
  · intro hspec
    refine ⟨["failed to check BMH references, cannot safely allow update: " ++
      ("failed to list BMHs using index: " ++ failMsg)], ?_⟩
    simp only [validateUpdate, findBMHReferencesE]
    rw [if_neg hspec]
  · exact ⟨_, rfl⟩
  · intro hrefs hvalid
    constructor
    · by_cases hspec2 : oldAttachment.Spec = newAttachment.Spec
      · simp only [validateUpdate]
        rw [if_pos hspec2]
      · simp only [validateUpdate, findBMHReferencesE, hrefs, hvalid]
        rw [if_neg hspec2]
        simp
    · simp only [validateDelete, findBMHReferencesE, hrefs]
      simp

/-- C1 witness: in the same-namespace scenario the spec-changing update is
rejected naming `test-ns/host-with-ref[eth0]`, the delete is rejected naming
the same pair, a lookup failure rejects both, and with an empty store both
operations are allowed. -/
theorem claimC1_referenceGuard_witness :
    ((∃ errs, validateUpdate (.ok [c1SameNsHost]) c1SameNsAttachment
        c1SameNsAttachmentNew = .error errs ∧
      ∃ e ∈ errs, strContains e (refPairString c1SameNsHost c1SameNsInterface) = true)
    ∧ (∃ e, validateDelete (.ok [c1SameNsHost]) c1SameNsAttachment = .error e ∧
        strContains e (refPairString c1SameNsHost c1SameNsInterface) = true))
    ∧ (∃ errs, validateUpdate (.failure "index down") c1SameNsAttachment
        c1SameNsAttachmentNew = .error errs)
    ∧ (∃ e, validateDelete (.failure "index down") c1SameNsAttachment = .error e)
    ∧ (validateUpdate (.ok []) c1SameNsAttachment c1SameNsAttachmentNew = .ok ()
        ∧ validateDelete (.ok []) c1SameNsAttachment = .ok ()) := by
  have h1 := claimC1_referenceGuard [c1SameNsHost] c1SameNsAttachment
    c1SameNsAttachmentNew c1SameNsHost c1SameNsInterface "index down"
  have h2 := claimC1_referenceGuard [] c1SameNsAttachment c1SameNsAttachmentNew
    c1SameNsHost c1SameNsInterface "index down"
  refine ⟨h1.1 (by decide) rfl (by decide) rfl (by decide) rfl (by decide),
    h1.2.1 (by decide), h1.2.2.1, h2.2.2.2 rfl rfl⟩

/-! ## Claim C9: interface-validation idempotence -/

theorem findStatusCondition_remove (conds : List Condition) (t : String) :
    findStatusCondition (removeStatusConditionList conds t) t = none := by
  unfold findStatusCondition removeStatusConditionList
  rw [List.find?_eq_none]
  intro c hc hbeq
  have hm := List.mem_filter.mp hc
  rw [hbeq] at hm
  cases hm.2

theorem findStatusCondition_set (conds : List Condition) (t s r m : String) :
    ∃ c2, findStatusCondition (setStatusConditionList conds ⟨t, s, r, m⟩) t =
        some c2 ∧ c2.Status = s ∧ c2.Reason = r := by
  induction conds with
  | nil =>
    exact ⟨⟨t, s, r, m⟩, by simp [setStatusConditionList, findStatusCondition],
      rfl, rfl⟩
  | cons c0 rest ih =>
    unfold setStatusConditionList
    by_cases h0 : (c0.CondType == t) = true
    · rw [if_pos h0]
      refine ⟨{ c0 with Status := s, Reason := r, Message := m }, ?_, rfl, rfl⟩
      unfold findStatusCondition
      rw [List.find?_cons]
      simp [h0]
    · rw [if_neg h0]
      obtain ⟨c2, hf, hs, hr⟩ := ih
      refine ⟨c2, ?_, hs, hr⟩
      unfold findStatusCondition at hf ⊢
      rw [List.find?_cons,
        show (c0.CondType == t) = false from by simpa using h0]
      exact hf

theorem setNIV_spec (host : BareMetalHost) (s r m : String) :
    (setNetworkInterfaceValidation host s r m).2.Spec = host.Spec := by
  simp only [setNetworkInterfaceValidation]
  split <;> first | rfl | (split <;> rfl)

theorem setNIV_hw (host : BareMetalHost) (s r m : String) :
    (setNetworkInterfaceValidation host s r m).2.Status.HardwareDetails =
      host.Status.HardwareDetails := by
  simp only [setNetworkInterfaceValidation]
  split <;> first | rfl | (split <;> rfl)

theorem clearNIV_spec (host : BareMetalHost) :
    (clearNetworkInterfaceValidation host).2.Spec = host.Spec := by
  unfold clearNetworkInterfaceValidation
  split <;> rfl

theorem clearNIV_hw (host : BareMetalHost) :
    (clearNetworkInterfaceValidation host).2.Status.HardwareDetails =
      host.Status.HardwareDetails := by
  unfold clearNetworkInterfaceValidation
  split <;> rfl

theorem performNIV_spec (host : BareMetalHost) (hd : HardwareDetails) :
    (performNetworkInterfaceValidation host hd).2.Spec = host.Spec := by
  simp only [performNetworkInterfaceValidation]
  split <;> rw [setNIV_spec]

theorem performNIV_hw (host : BareMetalHost) (hd : HardwareDetails) :
    (performNetworkInterfaceValidation host hd).2.Status.HardwareDetails =
      host.Status.HardwareDetails := by
  simp only [performNetworkInterfaceValidation]
  split <;> rw [setNIV_hw]

theorem setNIV_set (host : BareMetalHost) (s r m m2 : String) :
    setNetworkInterfaceValidation (setNetworkInterfaceValidation host s r m).2
      s r m2 = (false, (setNetworkInterfaceValidation host s r m).2) := by
  simp only [setNetworkInterfaceValidation]
  cases hex : findStatusCondition host.Status.Conditions
      ConditionNetworkInterfacesValid with
  | some c =>
    by_cases hm : (c.Status == s && c.Reason == r) = true
    · simp only [hex, if_pos hm]
    · simp only [hex, if_neg hm]
      obtain ⟨c2, hf, hs2, hr2⟩ := findStatusCondition_set
        host.Status.Conditions ConditionNetworkInterfacesValid s r m
      simp only [hf]
      rw [if_pos (by rw [hs2, hr2]; simp)]
  | none =>
    simp only [hex]
    obtain ⟨c2, hf, hs2, hr2⟩ := findStatusCondition_set
      host.Status.Conditions ConditionNetworkInterfacesValid s r m
    simp only [hf]
    rw [if_pos (by rw [hs2, hr2]; simp)]

theorem clearNIV_clear (host : BareMetalHost) :
    clearNetworkInterfaceValidation (clearNetworkInterfaceValidation host).2 =
      (false, (clearNetworkInterfaceValidation host).2) := by
  unfold clearNetworkInterfaceValidation
  by_cases hex : (findStatusCondition host.Status.Conditions
      ConditionNetworkInterfacesValid).isSome = true
  · rw [if_pos hex]
    rw [if_neg (by rw [findStatusCondition_remove]; simp)]
  · rw [if_neg hex, if_neg hex]

theorem performNIV_perform (host : BareMetalHost) (hd : HardwareDetails) :
    performNetworkInterfaceValidation
      (performNetworkInterfaceValidation host hd).2 hd =
      (false, (performNetworkInterfaceValidation host hd).2) := by
  by_cases hinv : (invalidInterfaceKeys host.Spec hd).length > 0
  · have h1 : performNetworkInterfaceValidation host hd =
        setNetworkInterfaceValidation host "False" "InvalidInterfaceNames"
          (invalidInterfacesMessage (invalidInterfaceKeys host.Spec hd) hd) := by
      simp only [performNetworkInterfaceValidation]
      rw [if_pos hinv]
    rw [h1]
    simp only [performNetworkInterfaceValidation, setNIV_spec]
    rw [if_pos hinv]
    exact setNIV_set host "False" "InvalidInterfaceNames" _ _
  · have h1 : performNetworkInterfaceValidation host hd =
        setNetworkInterfaceValidation host "True" "AllInterfacesValid"
          "All network interfaces are valid" := by
      simp only [performNetworkInterfaceValidation]
      rw [if_neg hinv]
    rw [h1]
    simp only [performNetworkInterfaceValidation, setNIV_spec]
    rw [if_neg hinv]
    exact setNIV_set host "True" "AllInterfacesValid" _ _

/-- C9: re-running `validateNetworkInterfaces` on the unchanged host reports
not-dirty and leaves the host (in particular its conditions) unchanged;
setting the `NetworkInterfacesValid` condition is a no-op when an existing
condition already has the same status and reason; clearing it is a no-op when
no such condition exists. -/
theorem claimC9_validateNetworkInterfaces_idempotent (host : BareMetalHost)
    (c : Condition) (s r m : String) :
    (validateNetworkInterfaces (validateNetworkInterfaces host).2 =
      (false, (validateNetworkInterfaces host).2))
    ∧ (findStatusCondition host.Status.Conditions
        ConditionNetworkInterfacesValid = some c → c.Status = s → c.Reason = r →
        setNetworkInterfaceValidation host s r m = (false, host))
    ∧ (findStatusCondition host.Status.Conditions
        ConditionNetworkInterfacesValid = none →
        clearNetworkInterfaceValidation host = (false, host)) := by
  refine ⟨?_, ?_, ?_⟩
  · by_cases hlen : host.Spec.NetworkInterfaces.length = 0
    · have hrun1 : (validateNetworkInterfaces host).2 =
          (clearNetworkInterfaceValidation host).2 := by
        unfold validateNetworkInterfaces
        rw [if_pos hlen]
      rw [hrun1]
      unfold validateNetworkInterfaces
      rw [if_pos (by rw [clearNIV_spec]; exact hlen)]
      exact clearNIV_clear host
    · cases hhd : host.Status.HardwareDetails with
      | none =>
        have hrun1 : (validateNetworkInterfaces host).2 =
            (clearNetworkInterfaceValidation host).2 := by
          unfold validateNetworkInterfaces
          rw [if_neg hlen, hhd]
        rw [hrun1]
        unfold validateNetworkInterfaces
        rw [if_neg (by rw [clearNIV_spec]; exact hlen)]
        rw [show (clearNetworkInterfaceValidation host).2.Status.HardwareDetails =
          (none : Option HardwareDetails) from by rw [clearNIV_hw]; exact hhd]
        exact clearNIV_clear host
      | some hd =>
        have hrun1 : (validateNetworkInterfaces host).2 =
            (performNetworkInterfaceValidation host hd).2 := by
          unfold validateNetworkInterfaces
          rw [if_neg hlen, hhd]
        rw [hrun1]
        unfold validateNetworkInterfaces
        rw [if_neg (by rw [performNIV_spec]; exact hlen)]
        rw [show (performNetworkInterfaceValidation host hd).2.Status.HardwareDetails =
          some hd from by rw [performNIV_hw]; exact hhd]
        exact performNIV_perform host hd
  · intro hfind hs hr
    simp only [setNetworkInterfaceValidation, hfind]
    rw [if_pos (by rw [hs, hr]; simp)]
  · intro hfind
    unfold clearNetworkInterfaceValidation
    rw [if_neg (by rw [hfind]; simp)]

/-- C9 witness: a concrete second validation run is not dirty and unchanged;
a matching set is a no-op; a clear with no condition present is a no-op. -/
theorem claimC9_validateNetworkInterfaces_idempotent_witness :
    (validateNetworkInterfaces
        (validateNetworkInterfaces
          ⟨"h1", "ns", ⟨[⟨"eth0", "", ⟨"att", ""⟩⟩]⟩,
            ⟨some ⟨[⟨"eth0", "aa:bb", false⟩]⟩, [], none⟩⟩).2 =
      (false, (validateNetworkInterfaces
          ⟨"h1", "ns", ⟨[⟨"eth0", "", ⟨"att", ""⟩⟩]⟩,
            ⟨some ⟨[⟨"eth0", "aa:bb", false⟩]⟩, [], none⟩⟩).2))
    ∧ setNetworkInterfaceValidation
        ⟨"h2", "ns", ⟨[]⟩,
          ⟨none, [⟨"NetworkInterfacesValid", "True", "AllInterfacesValid", "old"⟩], none⟩⟩
        "True" "AllInterfacesValid" "new message" =
      (false, ⟨"h2", "ns", ⟨[]⟩,
        ⟨none, [⟨"NetworkInterfacesValid", "True", "AllInterfacesValid", "old"⟩], none⟩⟩)
    ∧ clearNetworkInterfaceValidation ⟨"h3", "ns", ⟨[]⟩, ⟨none, [], none⟩⟩ =
      (false, ⟨"h3", "ns", ⟨[]⟩, ⟨none, [], none⟩⟩) :=
  ⟨(claimC9_validateNetworkInterfaces_idempotent
      ⟨"h1", "ns", ⟨[⟨"eth0", "", ⟨"att", ""⟩⟩]⟩,
        ⟨some ⟨[⟨"eth0", "aa:bb", false⟩]⟩, [], none⟩⟩
      ⟨"", "", "", ""⟩ "" "" "").1,
    (claimC9_validateNetworkInterfaces_idempotent
      ⟨"h2", "ns", ⟨[]⟩,
        ⟨none, [⟨"NetworkInterfacesValid", "True", "AllInterfacesValid", "old"⟩], none⟩⟩
      ⟨"NetworkInterfacesValid", "True", "AllInterfacesValid", "old"⟩
      "True" "AllInterfacesValid" "new message").2.1 (by decide) rfl rfl,
    (claimC9_validateNetworkInterfaces_idempotent
      ⟨"h3", "ns", ⟨[]⟩, ⟨none, [], none⟩⟩
      ⟨"", "", "", ""⟩ "" "" "").2.2 (by decide)⟩

/-! ## Helper lemmas: the string order used by the sort -/

theorem charToNat_inj {a b : Char} (h : a.toNat = b.toNat) : a = b := by
  unfold Char.toNat at h
  exact Char.ext (UInt32.toNat.inj h)

theorem strLeChars_trans (a : List Char) : ∀ b c : List Char,
    strLeChars a b = true → strLeChars b c = true → strLeChars a c = true := by
  induction a with
  | nil => intro b c _ _; rfl
  | cons x xs ih =>
    intro b c hab hbc
    cases b with
    | nil => simp [strLeChars] at hab
    | cons y ys =>
      cases c with
      | nil => simp [strLeChars] at hbc
      | cons z zs =>
        simp only [strLeChars] at hab hbc ⊢
        by_cases h1 : x.toNat < y.toNat
        · by_cases h2 : y.toNat < z.toNat
          · rw [if_pos (by omega)]
          · by_cases h3 : z.toNat < y.toNat
            · rw [if_neg h2, if_pos h3] at hbc
              cases hbc
            · rw [if_pos (by omega)]
        · by_cases h1b : y.toNat < x.toNat
          · rw [if_neg h1, if_pos h1b] at hab
            cases hab
          · rw [if_neg h1, if_neg h1b] at hab
            by_cases h2 : y.toNat < z.toNat
            · rw [if_pos (by omega)]
            · by_cases h3 : z.toNat < y.toNat
              · rw [if_neg h2, if_pos h3] at hbc
                cases hbc
              · rw [if_neg h2, if_neg h3] at hbc
                rw [if_neg (by omega), if_neg (by omega)]
                exact ih ys zs hab hbc

theorem strLeChars_total (a : List Char) : ∀ b : List Char,
    (strLeChars a b || strLeChars b a) = true := by
  induction a with
  | nil => intro b; simp [strLeChars]
  | cons x xs ih =>
    intro b
    cases b with
    | nil => simp [strLeChars]
    | cons y ys =>
      simp only [strLeChars]
      by_cases h1 : x.toNat < y.toNat
      · simp [h1]
      · by_cases h2 : y.toNat < x.toNat
        · simp [h1, h2]
        · simp only [if_neg h1, if_neg h2]
          exact ih ys

theorem strLeChars_antisymm (a : List Char) : ∀ b : List Char,
    strLeChars a b = true → strLeChars b a = true → a = b := by
  induction a with
  | nil =>
    intro b _ hba
    cases b with
    | nil => rfl
    | cons y ys => simp [strLeChars] at hba
  | cons x xs ih =>
    intro b hab hba
    cases b with
    | nil => simp [strLeChars] at hab
    | cons y ys =>
      simp only [strLeChars] at hab hba
      by_cases h1 : x.toNat < y.toNat
      · rw [if_neg (by omega), if_pos h1] at hba
        cases hba
      · by_cases h2 : y.toNat < x.toNat
        · rw [if_neg h1, if_pos h2] at hab
          cases hab
        · rw [if_neg h1, if_neg h2] at hab
          rw [if_neg h2, if_neg h1] at hba
          have hxy : x = y := charToNat_inj (by omega)
          rw [hxy, ih ys hab hba]

theorem strLeB_trans : ∀ a b c : String,
    strLeB a b = true → strLeB b c = true → strLeB a c = true :=
  fun a b c => strLeChars_trans a.data b.data c.data

theorem strLeB_total : ∀ a b : String, (strLeB a b || strLeB b a) = true :=
  fun a b => strLeChars_total a.data b.data

theorem strLeB_antisymm : ∀ a b : String,
    strLeB a b = true → strLeB b a = true → a = b :=
  fun a b hab hba => String.ext (strLeChars_antisymm a.data b.data hab hba)

theorem pairLeB_trans : ∀ p q r : String × String,
    pairLeB p q = true → pairLeB q r = true → pairLeB p r = true :=
  fun p q r => strLeB_trans p.1 q.1 r.1

theorem pairLeB_total : ∀ p q : String × String,
    (pairLeB p q || pairLeB q p) = true :=
  fun p q => strLeB_total p.1 q.1

theorem mergeSort_strings_eq_of_perm {l1 l2 : List String} (hp : l1.Perm l2) :
    l1.mergeSort strLeB = l2.mergeSort strLeB := by
  have hperm : (l1.mergeSort strLeB).Perm (l2.mergeSort strLeB) :=
    (List.mergeSort_perm l1 strLeB).trans
      (hp.trans (List.mergeSort_perm l2 strLeB).symm)
  exact @List.eq_of_perm_of_sorted String (fun a b => strLeB a b = true)
    ⟨fun a b => strLeB_antisymm a b⟩ _ _ hperm
    (List.sorted_mergeSort strLeB_trans strLeB_total l1)
    (List.sorted_mergeSort strLeB_trans strLeB_total l2)

/-! ## Claim C5: deterministic sorted switch-config assembly -/

theorem mergeSort_pairs_map_fst (l : List (String × String)) :
    (l.mergeSort pairLeB).map Prod.fst = (l.map Prod.fst).mergeSort strLeB := by
  refine @List.eq_of_perm_of_sorted String (fun a b => strLeB a b = true)
    ⟨fun a b => strLeB_antisymm a b⟩ _ _ ?_ ?_ ?_
  · exact ((List.mergeSort_perm l pairLeB).map Prod.fst).trans
      (List.mergeSort_perm (l.map Prod.fst) strLeB).symm
  · exact List.Pairwise.map Prod.fst (fun a b h => h)
      (List.sorted_mergeSort pairLeB_trans pairLeB_total l)
  · exact List.sorted_mergeSort strLeB_trans strLeB_total _

theorem assembleSwitchConfig_sections (entries : List (String × String))
    (hnd : (entries.map Prod.fst).Nodup) :
    assembleSwitchConfig entries =
      "# This file is managed by the Baremetal Operator\n\n" ++
        concatAll ((entries.mergeSort pairLeB).map Prod.snd) := by
  simp only [assembleSwitchConfig]
  congr 1
  rw [← mergeSort_pairs_map_fst, List.map_map]
  apply congrArg
  apply List.map_congr_left
  intro p hp
  have hmem : p ∈ entries := (List.mergeSort_perm entries pairLeB).mem_iff.mp hp
  show (assocLookup entries p.1).getD "" = p.2
  rw [assocLookup_mem hnd hmem]
  rfl

theorem assocLookup_perm {β : Type} {l1 l2 : List (String × β)} (hp : l1.Perm l2)
    (hnd : (l1.map Prod.fst).Nodup) (k : String) :
    assocLookup l1 k = assocLookup l2 k := by
  have hnd2 : (l2.map Prod.fst).Nodup := ((hp.map Prod.fst).nodup_iff).mp hnd
  cases hl : assocLookup l1 k with
  | some v =>
    symm
    exact (assocLookup_eq_some_iff hnd2).mpr
      (hp.mem_iff.mp ((assocLookup_eq_some_iff hnd).mp hl))
  | none =>
    symm
    rw [assocLookup_eq_none_iff]
    intro hk
    exact (assocLookup_eq_none_iff.mp hl) (((hp.map Prod.fst).mem_iff).mpr hk)

theorem assembleSwitchConfig_perm {l1 l2 : List (String × String)}
    (hp : l1.Perm l2) (hnd : (l1.map Prod.fst).Nodup) :
    assembleSwitchConfig l1 = assembleSwitchConfig l2 := by
  simp only [assembleSwitchConfig]
  congr 1
  rw [mergeSort_strings_eq_of_perm (hp.map Prod.fst)]
  apply congrArg
  apply List.map_congr_left
  intro n _
  rw [assocLookup_perm hp hnd]

theorem mapInsert_fresh {β : Type} {m : List (String × β)} {k : String}
    (hk : k ∉ m.map Prod.fst) (v : β) :
    mapInsert m k v = m ++ [(k, v)] := by
  induction m with
  | nil => rfl
  | cons p rest ih =>
    rw [List.map_cons, List.mem_cons] at hk
    push_neg at hk
    unfold mapInsert
    rw [if_neg (by
      intro hbeq
      exact hk.1 (beq_iff_eq.mp hbeq).symm)]
    rw [ih hk.2]
    rfl

theorem genLoop_entries
    (getSecret : String → String → Except String (List (String × String)))
    (credentialsPath : String) :
    ∀ (switches : List BareMetalSwitch) (accE accK : List (String × String))
      (entries keys : List (String × String)),
    (switches.map BareMetalSwitch.Name).Nodup →
    (∀ sw ∈ switches, sw.Name ∉ accE.map Prod.fst) →
    genLoop getSecret credentialsPath switches (accE, accK) = .ok (entries, keys) →
    entries = accE ++ switches.map (fun sw =>
      (sw.Name,
        (((writeSwitchEntry getSecret sw credentialsPath).toOption.map
          Prod.fst).getD ""))) := by
  intro switches
  induction switches with
  | nil =>
    intro accE accK entries keys _ _ h
    cases h
    simp
  | cons sw rest ih =>
    intro accE accK entries keys hnd hdisj h
    unfold genLoop at h
    cases hw : writeSwitchEntry getSecret sw credentialsPath with
    | error e =>
      rw [hw] at h
      cases h
    | ok pr =>
      obtain ⟨entry, additions⟩ := pr
      rw [hw] at h
      have h2 : genLoop getSecret credentialsPath rest
          (mapInsert accE sw.Name entry,
            additions.foldl (fun m kv => mapInsert m kv.1 kv.2) accK) =
          Except.ok (entries, keys) := h
      have hfresh : sw.Name ∉ accE.map Prod.fst :=
        hdisj sw (List.mem_cons_self _ _)
      rw [mapInsert_fresh hfresh entry] at h2
      rw [List.map_cons] at hnd
      have hndc := List.nodup_cons.mp hnd
      have hdisj2 : ∀ s ∈ rest,
          s.Name ∉ (accE ++ [(sw.Name, entry)]).map Prod.fst := by
        intro s hs
        rw [List.map_append]
        intro hmem
        rcases List.mem_append.mp hmem with hm | hm
        · exact hdisj s (List.mem_cons_of_mem _ hs) hm
        · have hm2 : s.Name = sw.Name := by simpa using hm
          apply hndc.1
          rw [← hm2]
          exact List.mem_map.mpr ⟨s, hs, rfl⟩
      rw [ih (accE ++ [(sw.Name, entry)]) _ entries keys hndc.2 hdisj2 h2]
      rw [List.map_cons, List.append_assoc, List.singleton_append]
      rw [hw]
      rfl

/-- C5: on two successful generation runs over the same switch resources
(listed in any order, names unique), the assembled `switch-configs.conf`
value equals the fixed banner comment and blank line followed by the
per-switch sections concatenated in lexicographic switch-name order (the
sorted entry list is pairwise ordered by name), and the two runs produce
byte-identical output. -/
theorem claimC5_switchConfig_deterministic
    (getSecret : String → String → Except String (List (String × String)))
    (credentialsPath : String)
    (switches1 switches2 : List BareMetalSwitch)
    (entries1 keys1 entries2 keys2 : List (String × String))
    (hperm : switches1.Perm switches2)
    (hnodup : (switches1.map BareMetalSwitch.Name).Nodup)
    (h1 : generateSwitchConfig getSecret switches1 credentialsPath =
      .ok (entries1, keys1))
    (h2 : generateSwitchConfig getSecret switches2 credentialsPath =
      .ok (entries2, keys2)) :
    assembleSwitchConfig entries1 =
      "# This file is managed by the Baremetal Operator\n\n" ++
        concatAll ((entries1.mergeSort pairLeB).map Prod.snd)
    ∧ List.Pairwise (fun p q => pairLeB p q = true) (entries1.mergeSort pairLeB)
    ∧ assembleSwitchConfig entries1 = assembleSwitchConfig entries2 := by
  have he1 := genLoop_entries getSecret credentialsPath switches1 [] [] entries1
    keys1 hnodup (by simp) h1
  have hnodup2 : (switches2.map BareMetalSwitch.Name).Nodup :=
    ((hperm.map BareMetalSwitch.Name).nodup_iff).mp hnodup
  have he2 := genLoop_entries getSecret credentialsPath switches2 [] [] entries2
    keys2 hnodup2 (by simp) h2
  rw [List.nil_append] at he1 he2
  have hndE : (entries1.map Prod.fst).Nodup := by
    rw [he1, List.map_map]
    simpa [Function.comp] using hnodup
  have hpermE : entries1.Perm entries2 := by
    rw [he1, he2]
    exact hperm.map _
  exact ⟨assembleSwitchConfig_sections entries1 hndE,
    List.sorted_mergeSort pairLeB_trans pairLeB_total entries1,
    assembleSwitchConfig_perm hpermE hndE⟩

/-- C5 witness: generating from the two-switch scenario listed in either
order assembles the banner plus the alpha section before the beta section,
byte-identically. -/
theorem claimC5_switchConfig_deterministic_witness :
    assembleSwitchConfig
        [("beta",
          "[switch:beta]\naddress=10.0.0.2\nmac_address=aa:aa:aa:aa:aa:02\ndriver_type=generic-switch\ndevice_type=cisco_ios\nusername=u2\npassword=p2\n\n"),
         ("alpha",
          "[switch:alpha]\naddress=10.0.0.1\nmac_address=aa:aa:aa:aa:aa:01\ndriver_type=generic-switch\ndevice_type=cisco_ios\nusername=u1\npassword=p1\n\n")] =
      "# This file is managed by the Baremetal Operator\n\n" ++
        concatAll ((([("beta",
          "[switch:beta]\naddress=10.0.0.2\nmac_address=aa:aa:aa:aa:aa:02\ndriver_type=generic-switch\ndevice_type=cisco_ios\nusername=u2\npassword=p2\n\n"),
         ("alpha",
          "[switch:alpha]\naddress=10.0.0.1\nmac_address=aa:aa:aa:aa:aa:01\ndriver_type=generic-switch\ndevice_type=cisco_ios\nusername=u1\npassword=p1\n\n")] : List (String × String)).mergeSort pairLeB).map Prod.snd)
    ∧ List.Pairwise (fun p q => pairLeB p q = true)
        (([("beta",
          "[switch:beta]\naddress=10.0.0.2\nmac_address=aa:aa:aa:aa:aa:02\ndriver_type=generic-switch\ndevice_type=cisco_ios\nusername=u2\npassword=p2\n\n"),
         ("alpha",
          "[switch:alpha]\naddress=10.0.0.1\nmac_address=aa:aa:aa:aa:aa:01\ndriver_type=generic-switch\ndevice_type=cisco_ios\nusername=u1\npassword=p1\n\n")] : List (String × String)).mergeSort pairLeB)
    ∧ assembleSwitchConfig
        [("beta",
          "[switch:beta]\naddress=10.0.0.2\nmac_address=aa:aa:aa:aa:aa:02\ndriver_type=generic-switch\ndevice_type=cisco_ios\nusername=u2\npassword=p2\n\n"),
         ("alpha",
          "[switch:alpha]\naddress=10.0.0.1\nmac_address=aa:aa:aa:aa:aa:01\ndriver_type=generic-switch\ndevice_type=cisco_ios\nusername=u1\npassword=p1\n\n")] =
      assembleSwitchConfig
        [("alpha",
          "[switch:alpha]\naddress=10.0.0.1\nmac_address=aa:aa:aa:aa:aa:01\ndriver_type=generic-switch\ndevice_type=cisco_ios\nusername=u1\npassword=p1\n\n"),
         ("beta",
          "[switch:beta]\naddress=10.0.0.2\nmac_address=aa:aa:aa:aa:aa:02\ndriver_type=generic-switch\ndevice_type=cisco_ios\nusername=u2\npassword=p2\n\n")] :=
  claimC5_switchConfig_deterministic c5GetSecret "/creds"
    [c5SwitchB, c5SwitchA] [c5SwitchA, c5SwitchB] _ _ _ _
    (by decide) (by decide) rfl rfl

/-- C7 witness: five deduplicated NICs, four per-NIC failures, aggregate
error naming only the first three with the 4/5 counts. -/
theorem claimC7_ensurePorts_aggregation_witness :
    ensurePorts c7Env =
      some "failed to ensure 4/5 ports: eth1(aa:bb:cc:dd:ee:02): boom; eth2(aa:bb:cc:dd:ee:03): boom; eth3(aa:bb:cc:dd:ee:04): boom" := by
  rw [claimC7_ensurePorts_aggregation c7Env
    [⟨"eth0", "AA:BB:CC:DD:EE:01", true⟩,
     ⟨"eth0b", "aa:bb:cc:dd:ee:01", false⟩,
     ⟨"noMac", "", false⟩,
     ⟨"eth1", "aa:bb:cc:dd:ee:02", false⟩,
     ⟨"eth2", "aa:bb:cc:dd:ee:03", false⟩,
     ⟨"eth3", "aa:bb:cc:dd:ee:04", false⟩,
     ⟨"eth4", "aa:bb:cc:dd:ee:05", false⟩]
    [⟨"aa:bb:cc:dd:ee:02"⟩] rfl rfl]
  decide

end Metal3
